import Mathlib

/-!
Verification of the cr-session orchestration-and-streaming engine.

This development shallowly embeds the parts of the repository that the
verified properties are about:

* `src/backend/src/graph/state.ts` — the workflow state and its per-field
  reducers (in particular the `sceneSummaries` merge-by-id reducer);
* `src/backend/src/graph/workflow.ts` — the stage graph and the
  `validatorRouter` conditional edge;
* `src/backend/src/agents/summarizer.ts`, `validator.ts` (which also holds
  `analystNode`), `formatter.ts` — the stage nodes, modelled as functions
  from the current state (plus an oracle standing for the external
  text-generation capability) to a partial state update;
* the Express server (unnamed source `src/unnamed/part_013`) — job registry,
  event log, broadcast/replay streaming, request parsing and the job runner.

Calls into the LLM backend are modelled as oracle parameters: the code
treats them as "invoke structured request → structured result, or fail",
so every theorem quantifies over the oracle's answers.  Deterministic
rule-based string checks inside the validator (regex scans of summary
text) only contribute extra per-scene issues; they are absorbed into the
same per-scene issue oracle, since no verified property depends on the
string-matching internals, only on how issues are tagged and aggregated.
-/

namespace CrSession

/-! ### Definitions (data model, reducers, stage nodes, workflow graph,
job registry, event log, streaming, job runner, request parsing),
followed by all theorems. -/

/-- Severity of a validation issue (`ValidationIssueSchema.severity`). -/

inductive Severity where
  | error
  | warning
  | info
deriving DecidableEq, Repr

/-- Scene type tag (`SceneSchema.type`). -/

inductive SceneType where
  | narrative
  | combat
  | social
  | exploration
  | meta
  | pause
deriving DecidableEq, Repr

/-- A scene, as produced by the analyst (`SceneSchema`). -/

structure Scene where
  id : Int
  title : String
  startLine : Int
  endLine : Int
  type : SceneType
  location : Option String := none
  summary : Option String := none
deriving DecidableEq, Repr

/-- One recorded dice roll inside a scene summary (`SceneSummarySchema.diceRolls`). -/

structure DiceRoll where
  character : String
  skill : String
  result : String
  context : String
deriving DecidableEq, Repr

/-- A per-scene summary (`SceneSummarySchema`). -/

structure SceneSummary where
  sceneId : Int
  narrativeSummary : String
  keyEvents : List String
  diceRolls : List DiceRoll
  npcsInvolved : List String
  technicalNotes : Option (List String) := none
deriving DecidableEq, Repr

/-- A validation issue (`ValidationIssueSchema`); `sceneId` is optional. -/

structure ValidationIssue where
  sceneId : Option Int
  issue : String
  severity : Severity
  suggestion : Option String := none
deriving DecidableEq, Repr

/-- The validator's report (`ValidationReportSchema`). -/

structure ValidationReport where
  isValid : Bool
  issues : List ValidationIssue
deriving DecidableEq, Repr

/-- A roster entry (`PlayerInfoSchema` / `PlayerDraft` in the server). -/

structure PlayerDraft where
  playerName : String
  characterName : String
  speakerHint : Option String := none
deriving DecidableEq, Repr

/-- JS `Map.set` keyed by `sceneId`: replace in place, else append. -/

def mapSetSummary (m : List SceneSummary) (s : SceneSummary) : List SceneSummary :=
  match m with
  | [] => [s]
  | t :: rest => if t.sceneId = s.sceneId then s :: rest else t :: mapSetSummary rest s

/-- Insertion into a list sorted by ascending `sceneId` (models the final
`Array.from(byId.values()).sort((x, y) => x.sceneId - y.sceneId)`; the keys
are distinct at that point, so any comparison sort yields this result). -/

def insertBySceneId (s : SceneSummary) : List SceneSummary → List SceneSummary
  | [] => [s]
  | t :: rest =>
    if s.sceneId ≤ t.sceneId then s :: t :: rest else t :: insertBySceneId s rest

/-- Sort summaries by ascending `sceneId`. -/

def sortBySceneId (l : List SceneSummary) : List SceneSummary :=
  l.foldr insertBySceneId []

/-- The `sceneSummaries` reducer from `graph/state.ts`. -/

def sceneSummariesReducer (a b : List SceneSummary) : List SceneSummary :=
  sortBySceneId ((a ++ b).foldl mapSetSummary [])

/-- Scene ids of a summary list. -/

def summaryIds (l : List SceneSummary) : List Int := l.map (·.sceneId)

/-- Ordering used by the final sort of the reducer. -/

def bySceneIdLE (x y : SceneSummary) : Prop := x.sceneId ≤ y.sceneId

instance : DecidableRel bySceneIdLE := fun x y => by
  unfold bySceneIdLE; infer_instance

/-- Fuel-indexed worker for `chunkArray` (structural recursion so that the
definition evaluates inside the kernel); the fuel is instantiated with the
list length, which bounds the number of loop iterations. -/

def chunkArrayAux {α : Type} : Nat → List α → Nat → List (List α)
  | 0, _, _ => []
  | _ + 1, [], _ => []
  | fuel + 1, x :: xs, s => (x :: xs).take (s + 1) :: chunkArrayAux fuel (xs.drop s) s

/-- `chunkArray` from `summarizer.ts` / `validator.ts`: split a list into
consecutive chunks of `size` elements (`for (i = 0; i < n; i += size)`).
Every call site uses `size = 5`; the JS loop would not terminate for
`size = 0`, so that case is mapped to `[]` and never used. -/

def chunkArray {α : Type} (l : List α) (size : Nat) : List (List α) :=
  match size with
  | 0 => []
  | s + 1 => chunkArrayAux l.length l s

/-- `[...new Set(list)]` in JS: deduplicate keeping first occurrences. -/

def jsSetDedup (l : List Int) : List Int :=
  l.foldl (fun acc x => if x ∈ acc then acc else acc ++ [x]) []

structure WorkflowState where
  rawTranscript : String := ""
  preprocessedTranscript : String := ""
  universeContext : String := ""
  sessionHistory : String := ""
  universeName : String := "generic"
  playerInfo : List PlayerDraft := []
  scenes : List Scene := []
  speakerMap : List (String × String) := []
  pendingSceneIds : List Int := []
  currentSceneIndex : Int := 0
  sceneSummaries : List SceneSummary := []
  validationReport : ValidationReport := ⟨true, []⟩
  retryCount : Int := 0
  finalReport : String := ""
  currentStep : String := "idle"
deriving DecidableEq, Repr

instance : Inhabited WorkflowState := ⟨{}⟩

/-- A partial state update returned by a node (absent field = untouched). -/

structure WorkflowUpdate where
  preprocessedTranscript : Option String := none
  speakerMap : Option (List (String × String)) := none
  scenes : Option (List Scene) := none
  pendingSceneIds : Option (List Int) := none
  currentSceneIndex : Option Int := none
  sceneSummaries : Option (List SceneSummary) := none
  validationReport : Option ValidationReport := none
  retryCount : Option Int := none
  finalReport : Option String := none
  currentStep : Option String := none
deriving Repr

/-- Merge a partial update into the state using the reducer table of
`graph/state.ts`. -/

def applyUpdate (s : WorkflowState) (u : WorkflowUpdate) : WorkflowState :=
  { s with
    preprocessedTranscript := u.preprocessedTranscript.getD s.preprocessedTranscript
    speakerMap := u.speakerMap.getD s.speakerMap
    scenes := u.scenes.getD s.scenes
    pendingSceneIds := u.pendingSceneIds.getD s.pendingSceneIds
    currentSceneIndex := u.currentSceneIndex.getD s.currentSceneIndex
    sceneSummaries :=
      match u.sceneSummaries with
      | none => s.sceneSummaries
      | some b => sceneSummariesReducer s.sceneSummaries b
    validationReport := u.validationReport.getD s.validationReport
    retryCount := u.retryCount.getD s.retryCount
    finalReport := u.finalReport.getD s.finalReport
    currentStep := u.currentStep.getD s.currentStep }

/-- Scene eligibility for per-scene processing: `type` is neither
`"meta"` nor `"pause"`. -/

def isNarrativeScene (s : Scene) : Bool :=
  !(s.type == SceneType.meta) && !(s.type == SceneType.pause)

/-- `preprocessorNode` (workflow.ts): the preprocessing result itself comes
from `tools/preprocessing.ts`, which is not part of the analysed sources;
its output is a parameter, and the node records it plus the step marker. -/

def preprocessorUpdate (preOut : String) : WorkflowUpdate :=
  { preprocessedTranscript := some preOut
    currentStep := some "preprocessor_complete" }

/-- Structured output of the analyst LLM call (`AnalystOutputSchema`),
projected to the fields the pipeline uses. -/

structure AnalystOutput where
  speakerMap : List (String × String) := []
  scenes : List Scene := []

/-- `analystNode` (in `agents/validator.ts`'s companion file): store the
oracle's scenes and queue every narrative scene id. -/

def analystUpdate (o : AnalystOutput) : WorkflowUpdate :=
  { speakerMap := some o.speakerMap
    scenes := some o.scenes
    pendingSceneIds := some ((o.scenes.filter isNarrativeScene).map (·.id))
    currentSceneIndex := some (0 : Int)
    currentStep := some "analyst_complete" }

/-- Batch size used by both summarizer (`SCENE_CONCURRENCY`) and validator
(`VALIDATION_CONCURRENCY`). -/

def SCENE_CONCURRENCY : Nat := 5

/-- `summarizerNode`: the scene ids to process on this pass. -/

def summarizerPendingIds (s : WorkflowState) : List Int :=
  if s.pendingSceneIds.length > 0 then s.pendingSceneIds
  else (s.scenes.filter isNarrativeScene).map (·.id)

/-- `summarizerNode`: resolve the pending ids against the scene list and
drop `meta`/`pause` scenes. -/

def scenesToProcess (s : WorkflowState) : List Scene :=
  ((summarizerPendingIds s).filterMap
      (fun id => s.scenes.find? (fun sc => sc.id == id))).filter isNarrativeScene

/-- The sequential batches the summarizer processes. -/

def summarizerBatches (s : WorkflowState) : List (List Scene) :=
  chunkArray (scenesToProcess s) SCENE_CONCURRENCY

/-- `summarizerNode` as a state update.  The per-scene LLM call is the
oracle `so`; the node overrides the returned `sceneId` with the scene's id
(`{ ...result, sceneId: scene.id }`) and concatenates batch results in
batch order. -/

def summarizerUpdate (s : WorkflowState) (so : Scene → SceneSummary) : WorkflowUpdate :=
  let pend := summarizerPendingIds s
  let toProc := scenesToProcess s
  if toProc.isEmpty then
    { pendingSceneIds := some pend
      currentStep := some "summarizer_complete" }
  else
    let summaries :=
      ((chunkArray toProc SCENE_CONCURRENCY).map
        (fun batch => batch.map (fun sc => { so sc with sceneId := sc.id }))).flatten
    { sceneSummaries := some summaries
      pendingSceneIds := some pend
      currentStep := some "summarizer_complete" }

/-- An issue as returned per scene by the validator's LLM call
(`PerSceneIssueSchema`) or by the rule-based summary checks: no scene id
yet, the node tags it. -/

structure PerSceneIssue where
  issue : String
  severity : Severity
  suggestion : Option String := none
deriving DecidableEq, Repr

def MAX_RETRIES : Int := 2

/-- `validatorNode`: on a retry pass, only re-validate the pending scenes. -/

def validatorIdsToValidate (s : WorkflowState) : Option (List Int) :=
  if s.retryCount > 0 && s.pendingSceneIds.length > 0 then some s.pendingSceneIds
  else none

/-- `validatorNode`: pair every summary with its scene, dropping summaries
without a scene, `meta`/`pause` scenes, and (on retry) scenes outside the
pending set. -/

def validatorScenePairs (s : WorkflowState) : List (Scene × SceneSummary) :=
  (((s.sceneSummaries.filterMap
      (fun summ => (s.scenes.find? (fun sc => sc.id == summ.sceneId)).map
        (fun sc => (sc, summ)))).filter
    (fun p => isNarrativeScene p.1)).filter
    (fun p => match validatorIdsToValidate s with
      | none => true
      | some ids => ids.contains p.1.id))

/-- `validatorNode`: issues carried forward for scenes not re-validated. -/

def carriedIssues (s : WorkflowState) : List ValidationIssue :=
  match validatorIdsToValidate s with
  | some ids =>
    s.validationReport.issues.filter (fun i =>
      match i.sceneId with
      | some id => !(ids.contains id)
      | none => false)
  | none => []

/-- Tag a per-scene issue with its scene id (`{ ...issue, sceneId: scene.id }`). -/

def taggedIssue (sc : Scene) (i : PerSceneIssue) : ValidationIssue :=
  { sceneId := some sc.id
    issue := i.issue
    severity := i.severity
    suggestion := i.suggestion }

/-- `validatorNode`: the aggregated issue list — carried-forward issues,
then each batch's tagged per-scene issues in order. -/

def validatorAggregatedIssues (s : WorkflowState)
    (vo : Scene → SceneSummary → List PerSceneIssue) : List ValidationIssue :=
  carriedIssues s ++
    (((chunkArray (validatorScenePairs s) SCENE_CONCURRENCY).map
      (fun batch => batch.map (fun p => (vo p.1 p.2).map (taggedIssue p.1)))).flatten).flatten

/-- `aggregatedIssues.some(i => i.severity === "error")`. -/

def reportHasErrors (issues : List ValidationIssue) : Bool :=
  issues.any (fun i => i.severity == Severity.error)

/-- The deduplicated scene ids carrying an error-severity issue
(`[...new Set(issues.filter(error ∧ sceneId ≠ null).map(sceneId))]`). -/

def errorSceneIds (issues : List ValidationIssue) : List Int :=
  jsSetDedup (issues.filterMap
    (fun i => if i.severity == Severity.error then i.sceneId else none))

/-- `validatorNode` as a state update (per-scene issue production is the
oracle `vo`). -/

def validatorUpdate (s : WorkflowState)
    (vo : Scene → SceneSummary → List PerSceneIssue) : WorkflowUpdate :=
  let aggregated := validatorAggregatedIssues s vo
  let hasErrors := reportHasErrors aggregated
  let pend := if hasErrors then errorSceneIds aggregated else []
  let takeRetry := pend.length > 0 && s.retryCount + 1 < MAX_RETRIES
  { validationReport := some ⟨!hasErrors, aggregated⟩
    retryCount := some (s.retryCount + 1)
    pendingSceneIds := if takeRetry then some pend else none
    currentSceneIndex := if takeRetry then some (0 : Int) else none
    currentStep := some "validator_complete" }

/-- `formatterNode`, projected to the fields it writes; the report text is
the LLM oracle's answer. -/

def formatterUpdate (fo : String) : WorkflowUpdate :=
  { finalReport := some fo
    currentStep := some "formatter_complete" }

inductive Route where
  | formatter
  | summarizer
deriving DecidableEq, Repr

/-- `validatorRouter`: runs on the state as updated by the completed
validator node (LangGraph applies the node's writes before evaluating the
conditional edge). -/

def validatorRouter (s : WorkflowState) : Route :=
  if s.validationReport.issues.any (fun i => i.severity == Severity.error)
      && s.retryCount < MAX_RETRIES then
    Route.summarizer
  else
    Route.formatter

/-- State after a completed validate pass, then the route taken. -/

def routeAfterValidator (s : WorkflowState)
    (vo : Scene → SceneSummary → List PerSceneIssue) : Route :=
  validatorRouter (applyUpdate s (validatorUpdate s vo))

/-- The summarize→validate loop of the graph, returning every intermediate
state in execution order together with the final state.  `fuel` bounds the
recursion; the retry guard makes three iterations enough for any state
with a non-negative retry count. -/

def pipelineLoop : Nat → WorkflowState → (Scene → SceneSummary) →
    (Scene → SceneSummary → List PerSceneIssue) → List WorkflowState × WorkflowState
  | 0, s, _, _ => ([], s)
  | fuel + 1, s, so, vo =>
    let s1 := applyUpdate s (summarizerUpdate s so)
    let s2 := applyUpdate s1 (validatorUpdate s1 vo)
    match validatorRouter s2 with
    | Route.formatter => ([s1, s2], s2)
    | Route.summarizer =>
      let rest := pipelineLoop fuel s2 so vo
      (s1 :: s2 :: rest.1, rest.2)

/-- One full run of the compiled graph: Preprocess → Analyze →
(Summarize → Validate)⁺ → Format, listing the state after every node. -/

def pipelineStates (s0 : WorkflowState) (preOut : String) (ao : AnalystOutput)
    (so : Scene → SceneSummary) (vo : Scene → SceneSummary → List PerSceneIssue)
    (fo : String) : List WorkflowState :=
  let sP := applyUpdate s0 (preprocessorUpdate preOut)
  let sA := applyUpdate sP (analystUpdate ao)
  let loopRes := pipelineLoop 3 sA so vo
  let sF := applyUpdate loopRes.2 (formatterUpdate fo)
  [sP, sA] ++ loopRes.1 ++ [sF]

def sampleScene : Scene :=
  { id := 1, title := "Scene 1", startLine := 1, endLine := 10,
    type := SceneType.narrative }

def sampleAnalystOut : AnalystOutput := { speakerMap := [], scenes := [sampleScene] }

def sampleSummaryOracle : Scene → SceneSummary := fun _ =>
  { sceneId := 0, narrativeSummary := "recit de la scene", keyEvents := [],
    diceRolls := [], npcsInvolved := [] }

def sampleIssueOracle : Scene → SceneSummary → List PerSceneIssue := fun _ _ =>
  [{ issue := "attribution incorrecte", severity := Severity.error }]

/-- The state after each node of the run: preprocess, analyze,
summarize #1, validate #1 (retry taken), summarize #2, validate #2
(routes to format), format. -/

def sampleTrace : List WorkflowState :=
  pipelineStates {} "texte normalise" sampleAnalystOut sampleSummaryOracle
    sampleIssueOracle "rapport final"

/-- State entering the first validate pass (after summarize #1). -/

def sampleBeforeValidate1 : WorkflowState := sampleTrace[2]!

/-- State entering the second validate pass (after the retry summarize). -/

def sampleBeforeValidate2 : WorkflowState := sampleTrace[4]!

/-- State right after the analyst node. -/

def sampleAfterAnalyst : WorkflowState := sampleTrace[1]!

def priorSummary1 : SceneSummary :=
  { sceneId := 1, narrativeSummary := "ancien recit 1", keyEvents := [],
    diceRolls := [], npcsInvolved := [] }

def priorSummary3 : SceneSummary :=
  { sceneId := 3, narrativeSummary := "ancien recit 3", keyEvents := [],
    diceRolls := [], npcsInvolved := [] }

def replacementSummary3 : SceneSummary :=
  { sceneId := 3, narrativeSummary := "nouveau recit 3", keyEvents := [],
    diceRolls := [], npcsInvolved := [] }

inductive Json where
  | null
  | bool (b : Bool)
  | num (n : Int)
  | str (s : String)
  | arr (items : List Json)
  | obj (fields : List (String × Json))

/-- `ProcessJobStatus`. -/

inductive JobStatus where
  | pending
  | running
  | completed
  | failed
deriving DecidableEq, Repr

/-- `isTerminalJobStatus`. -/

def isTerminalJobStatus : JobStatus → Bool
  | JobStatus.completed => true
  | JobStatus.failed => true
  | _ => false

/-- `ProcessJobEvent`. -/

structure ProcessJobEvent where
  id : Nat
  type : String
  data : Json
  timestamp : String

/-- `ProcessInput`. -/

structure ProcessInput where
  rawTranscript : String
  transcriptName : String
  universeContext : String
  sessionHistory : String
  universeName : String
  playerInfo : List PlayerDraft

/-- `ProcessJob` (the live listener set is modelled separately, through
the subscription-delivery semantics below). -/

structure ProcessJob where
  id : String
  status : JobStatus
  createdAt : String
  updatedAt : String
  transcriptName : String
  universeName : String
  playerInfo : List PlayerDraft
  input : ProcessInput
  events : List ProcessJobEvent
  nextEventId : Nat
  error : Option String

/-- `createProcessJob` (the surrounding registry sweep does not touch the
fresh job).  The uuid and creation instant are parameters. -/

def createProcessJob (uuid : String) (now : String) (input : ProcessInput) : ProcessJob :=
  { id := uuid
    status := JobStatus.pending
    createdAt := now
    updatedAt := now
    transcriptName := input.transcriptName
    universeName := input.universeName
    playerInfo := input.playerInfo
    input := input
    events := []
    nextEventId := 1
    error := none }

/-- `setProcessJobStatus`. -/

def setProcessJobStatus (job : ProcessJob) (status : JobStatus)
    (error : Option String) (now : String) : ProcessJob :=
  { job with status := status, error := error, updatedAt := now }

/-- `publishProcessJobEvent`: append the event with id `nextEventId`,
bump the counter and `updatedAt`.  (Synchronous listener notification is
captured by `liveDelivered` below.) -/

def publishProcessJobEvent (job : ProcessJob) (type : String) (data : Json)
    (now : String) : ProcessJob :=
  { job with
    events := job.events ++ [⟨job.nextEventId, type, data, now⟩]
    nextEventId := job.nextEventId + 1
    updatedAt := now }

/-- An operation some actor performs on a job. -/

inductive JobOp where
  | publish (type : String) (data : Json) (now : String)
  | setStatus (status : JobStatus) (error : Option String) (now : String)

def applyOp (j : ProcessJob) : JobOp → ProcessJob
  | JobOp.publish t d now => publishProcessJobEvent j t d now
  | JobOp.setStatus st err now => setProcessJobStatus j st err now

def applyOps (j : ProcessJob) (ops : List JobOp) : ProcessJob :=
  ops.foldl applyOp j

/-- The event-log well-formedness invariant: ids are `1, 2, …, n` in
append order and the counter points one past the end. -/

def eventIdsOK (j : ProcessJob) : Prop :=
  j.events.map (·.id) = List.range' 1 j.events.length ∧
    j.nextEventId = j.events.length + 1

/-- The replay phase: write every buffered event with `id ≥ fromEventId`,
in buffer order. -/

def replayEvents (j : ProcessJob) (fromEventId : Nat) : List ProcessJobEvent :=
  j.events.filter (fun e => fromEventId ≤ e.id)

/-- What an attached live listener receives while `ops` are applied: each
published event is written, and after writing, the listener detaches as
soon as the job status is terminal. -/

def liveDelivered : ProcessJob → List JobOp → List ProcessJobEvent
  | _, [] => []
  | j, op :: rest =>
    match op with
    | JobOp.publish t d now =>
      let j' := publishProcessJobEvent j t d now
      ⟨j.nextEventId, t, d, now⟩ ::
        (if isTerminalJobStatus j'.status then [] else liveDelivered j' rest)
    | JobOp.setStatus st err now => liveDelivered (setProcessJobStatus j st err now) rest

/-- Everything a subscriber with `from = fromEventId` receives:
the replay, then — unless the job is already terminal, in which case the
stream ends — the live events until the job turns terminal. -/

def streamDelivered (j : ProcessJob) (fromEventId : Nat) (ops : List JobOp) :
    List ProcessJobEvent :=
  replayEvents j fromEventId ++
    (if isTerminalJobStatus j.status then [] else liveDelivered j ops)

/-- An operation that does not set a terminal status. -/

def isNonTerminalOp : JobOp → Bool
  | JobOp.setStatus st _ _ => !(isTerminalJobStatus st)
  | _ => true

/-- Operations that never set a terminal status (what a run performs
strictly before its terminal transition). -/

def nonTerminalOps (ops : List JobOp) : Prop :=
  ∀ op ∈ ops, isNonTerminalOp op = true

def sampleInput : ProcessInput :=
  { rawTranscript := "bonjour le monde"
    transcriptName := "session.txt"
    universeContext := ""
    sessionHistory := ""
    universeName := "generic"
    playerInfo := [] }

/-- A job with three buffered events, still running. -/

def sampleJob : ProcessJob :=
  applyOps (createProcessJob "job-1" "t0" sampleInput)
    [JobOp.setStatus JobStatus.running none "t1",
     JobOp.publish "step:start" Json.null "t1",
     JobOp.publish "step:complete" Json.null "t2",
     JobOp.publish "step:start" Json.null "t3"]

def sampleTailOps : List JobOp :=
  [JobOp.publish "step:complete" Json.null "t4",
   JobOp.setStatus JobStatus.completed none "t5",
   JobOp.publish "done" Json.null "t5"]

/-- `SceneMeta` as the server sees scenes inside update chunks. -/

structure SceneMeta where
  id : Int
  type : String
  title : String
  startLine : Int
  endLine : Int

def sceneMetaIsNarrative (s : SceneMeta) : Bool :=
  !(s.type == "meta") && !(s.type == "pause")

def severityToString : Severity → String
  | Severity.error => "error"
  | Severity.warning => "warning"
  | Severity.info => "info"

def issueToJson (i : ValidationIssue) : Json :=
  Json.obj
    ((match i.sceneId with
      | some id => [("sceneId", Json.num id)]
      | none => []) ++
      [("issue", Json.str i.issue),
        ("severity", Json.str (severityToString i.severity))] ++
      (match i.suggestion with
        | some sug => [("suggestion", Json.str sug)]
        | none => []))

def reportToJson (r : ValidationReport) : Json :=
  Json.obj [("isValid", Json.bool r.isValid),
    ("issues", Json.arr (r.issues.map issueToJson))]

def sceneMetaToJson (sc : SceneMeta) : Json :=
  Json.obj [("id", Json.num sc.id), ("title", Json.str sc.title),
    ("startLine", Json.num sc.startLine), ("endLine", Json.num sc.endLine)]

def playerDraftToJson (p : PlayerDraft) : Json :=
  Json.obj ([("playerName", Json.str p.playerName),
    ("characterName", Json.str p.characterName)] ++
    (match p.speakerHint with
      | some h => [("speakerHint", Json.str h)]
      | none => []))

def stepPayload (step label : String) : Json :=
  Json.obj [("step", Json.str step), ("label", Json.str label)]

def stepPayloadData (step label : String) (data : Json) : Json :=
  Json.obj [("step", Json.str step), ("label", Json.str label), ("data", data)]

/-- `sendSceneCollection`'s payload. -/

def scenesPayload (group : String) (scenes : List SceneMeta) : Json :=
  Json.obj [("group", Json.str group),
    ("scenes", Json.arr (scenes.map sceneMetaToJson))]

/-- One chunk of the workflow stream as consumed by `runProcessJob`:
either an "updates" chunk keyed by the node that just completed, or a
"custom" chunk forwarded from a node's stream writer. -/

inductive WorkflowChunk where
  | preprocessor
  | analyst (scenes : List SceneMeta) (speakerMap : Json) (entities : Json)
  | summarizer (summariesCount : Nat)
  | validator (report : ValidationReport) (retryCount : Int)
  | formatter (finalReport : String) (scenes : Json) (entities : Json) (reportId : String)
  | custom (event : String) (payload : Json)

/-- The events `handleUpdateChunk` / `handleCustomChunk` publish for one
chunk, given the cached narrative scene list. -/

def chunkOpsList (job : ProcessJob) (cache : List SceneMeta) (c : WorkflowChunk)
    (now : String) : List JobOp :=
  match c with
  | WorkflowChunk.preprocessor =>
    [JobOp.publish "step:complete" (stepPayload "preprocessor" "Preprocessing terminé") now,
      JobOp.publish "step:start"
        (stepPayload "analyst"
          "Analyse du transcript (détection scènes, speakers, entités)...") now]
  | WorkflowChunk.analyst scenes sm em =>
    let narrativeScenes := scenes.filter sceneMetaIsNarrative
    [JobOp.publish "step:complete"
        (stepPayloadData "analyst" "Analyse terminée"
          (Json.obj [("scenesCount", Json.num scenes.length),
            ("narrativeScenesCount", Json.num narrativeScenes.length),
            ("speakerMap", sm), ("entitiesPreview", em)])) now,
      JobOp.publish "step:start"
        (stepPayloadData "summarizer"
          "Analyse détaillée des scènes (en parallèle, subset transcript par agent)"
          (Json.obj [("totalScenes", Json.num narrativeScenes.length)])) now,
      JobOp.publish "step:scenes" (scenesPayload "summarizer" narrativeScenes) now]
  | WorkflowChunk.summarizer n =>
    [JobOp.publish "step:complete"
        (stepPayloadData "summarizer"
          ("Analyse terminée (" ++ toString n ++ " scène(s) traitée(s))")
          (Json.obj [("summariesCount", Json.num n)])) now,
      JobOp.publish "step:start"
        (stepPayload "validator" "Validation détaillée par scène en cours...") now,
      JobOp.publish "step:scenes" (scenesPayload "validator" cache) now]
  | WorkflowChunk.validator report retryCount =>
    let completeLabel :=
      if report.isValid then "Validation OK"
      else "Validation: " ++ toString report.issues.length ++ " problème(s) détecté(s)"
    let errorIds := errorSceneIds report.issues
    JobOp.publish "step:complete"
        (stepPayloadData "validator" completeLabel
          (Json.obj [("validationReport", reportToJson report),
            ("retryCount", Json.num retryCount)])) now ::
      (if !report.isValid && retryCount < 2 && errorIds.length > 0 then
        let retryScenes := cache.filter (fun sc => errorIds.contains sc.id)
        [JobOp.publish "step:start"
            (stepPayloadData "summarizer"
              ("Correction parallèle des " ++ toString retryScenes.length ++
                " scène(s) en erreur (tentative " ++ toString (retryCount + 1) ++ ")...")
              (Json.obj [("totalScenes", Json.num retryScenes.length),
                ("retryCount", Json.num retryCount)])) now,
          JobOp.publish "step:scenes" (scenesPayload "summarizer" retryScenes) now]
      else
        [JobOp.publish "step:start"
          (stepPayload "formatter" "Mise en forme du compte-rendu...") now])
  | WorkflowChunk.formatter finalReport scenesJ entitiesJ reportId =>
    [JobOp.publish "step:complete" (stepPayload "formatter" "Compte-rendu généré !") now,
      JobOp.publish "result"
        (Json.obj [("reportId", Json.str reportId), ("finalReport", Json.str finalReport),
          ("scenes", scenesJ), ("entities", entitiesJ),
          ("job", Json.obj [("id", Json.str job.id),
            ("universeName", Json.str job.universeName),
            ("transcriptName", Json.str job.transcriptName),
            ("playerInfo", Json.arr (job.playerInfo.map playerDraftToJson))])]) now]
  | WorkflowChunk.custom ev payload => [JobOp.publish ev payload now]

/-- The narrative scene cache after a chunk (`narrativeScenesCache`). -/

def chunkCacheUpdate (cache : List SceneMeta) : WorkflowChunk → List SceneMeta
  | WorkflowChunk.analyst scenes _ _ => scenes.filter sceneMetaIsNarrative
  | _ => cache

/-- The events published while consuming the chunk stream. -/

def chunksOps (job : ProcessJob) : List SceneMeta → List WorkflowChunk → String → List JobOp
  | _, [], _ => []
  | cache, c :: rest, now =>
    chunkOpsList job cache c now ++ chunksOps job (chunkCacheUpdate cache c) rest now

/-- All operations `runProcessJob` performs on its job, in order: mark it
running and announce preprocessing, publish each chunk's events, then —
depending on whether the workflow stream finished or raised with message
`m` — mark the job completed and publish `done`, or mark it failed with
the message and publish `error` (the stack field is absent outside
development). -/

def runProcessJobOps (job : ProcessJob) (chunks : List WorkflowChunk)
    (failure : Option String) (now : String) : List JobOp :=
  [JobOp.setStatus JobStatus.running none now,
    JobOp.publish "step:start"
      (stepPayload "preprocessor" "Preprocessing du transcript...") now] ++
    chunksOps job [] chunks now ++
    (match failure with
      | none =>
        [JobOp.setStatus JobStatus.completed none now,
          JobOp.publish "done" (Json.obj [("message", Json.str "Traitement terminé.")]) now]
      | some m =>
        [JobOp.setStatus JobStatus.failed (some m) now,
          JobOp.publish "error" (Json.obj [("message", Json.str m)]) now])

/-- `runProcessJob` as the job transformation it performs. -/

def runProcessJob (job : ProcessJob) (chunks : List WorkflowChunk)
    (failure : Option String) (now : String) : ProcessJob :=
  applyOps job (runProcessJobOps job chunks failure now)

/-- The job's status before each operation and after the last one. -/

def statusTrace (j : ProcessJob) : List JobOp → List JobStatus
  | [] => [j.status]
  | op :: rest => j.status :: statusTrace (applyOp j op) rest

def isPublishOp : JobOp → Bool
  | JobOp.publish _ _ _ => true
  | _ => false

def allPublishes (ops : List JobOp) : Prop := ∀ op ∈ ops, isPublishOp op = true

/-- A submission request: the optional uploaded file (buffer and original
name) and the body fields, each an arbitrary JSON value when present. -/

structure ApiRequest where
  fileBuffer : Option String := none
  fileName : Option String := none
  transcript : Option Json := none
  universeContext : Option Json := none
  sessionHistory : Option Json := none
  universeName : Option Json := none
  transcriptName : Option Json := none
  playerInfo : Option Json := none

/-- `typeof v === "string" ? v : ""`. -/

def jsonStringOr (v : Option Json) : String :=
  match v with
  | some (Json.str s) => s
  | _ => ""

/-- `req.file?.buffer.toString("utf-8") ?? (typeof body.transcript === "string" ? it : "")`. -/

def transcriptTextOf (req : ApiRequest) : String :=
  match req.fileBuffer with
  | some b => b
  | none => jsonStringOr req.transcript

/-- JS `String.prototype.trim`, written with structural recursion. -/

def jsTrim (s : String) : String :=
  String.mk (((s.toList.dropWhile Char.isWhitespace).reverse.dropWhile
    Char.isWhitespace).reverse)

/-- `parsePlayerDraft`.  A JS array also passes the `typeof === "object"`
test, but its property reads are `undefined`, so both names are empty and
`null` is returned — the same outcome as the catch-all branch here. -/

def parsePlayerDraft (v : Json) : Option PlayerDraft :=
  match v with
  | Json.obj fields =>
    let playerName :=
      match fields.lookup "playerName" with
      | some (Json.str s) => s
      | _ => ""
    let characterName :=
      match fields.lookup "characterName" with
      | some (Json.str s) => s
      | _ => ""
    if jsTrim playerName = "" && jsTrim characterName = "" then none
    else
      some { playerName := jsTrim playerName
             characterName := jsTrim characterName
             speakerHint :=
               match fields.lookup "speakerHint" with
               | some (Json.str s) => some s
               | _ => none }
  | _ => none

inductive ParsedProcessRequest where
  | ok (input : ProcessInput)
  | reject (status : Nat) (message : String)

/-- `req.body?.playerInfo ?? []` (a JSON `null` also falls back to `[]`). -/

def playerInfoField (req : ApiRequest) : Json :=
  match req.playerInfo with
  | none => Json.arr []
  | some Json.null => Json.arr []
  | some v => v

/-- The result of `JSON.parse` applied to a string-valued `playerInfo`:
a parse failure is a 400, a non-array value is a 400, an array is
accepted (the wildcard of the source is spelled out per constructor). -/

def parsePlayerInfoString (p : Option Json) (mk : List Json → ProcessInput) :
    ParsedProcessRequest :=
  match p with
  | none => ParsedProcessRequest.reject 400 "playerInfo invalide (JSON attendu)."
  | some (Json.arr items) => ParsedProcessRequest.ok (mk items)
  | some Json.null => ParsedProcessRequest.reject 400 "playerInfo invalide (tableau attendu)."
  | some (Json.bool _) => ParsedProcessRequest.reject 400 "playerInfo invalide (tableau attendu)."
  | some (Json.num _) => ParsedProcessRequest.reject 400 "playerInfo invalide (tableau attendu)."
  | some (Json.str _) => ParsedProcessRequest.reject 400 "playerInfo invalide (tableau attendu)."
  | some (Json.obj _) => ParsedProcessRequest.reject 400 "playerInfo invalide (tableau attendu)."

/-- The `playerInfo` handling of `parseProcessRequest`: a string goes
through `JSON.parse`, anything that is not an array is a 400, and array
entries are parsed with malformed entries silently dropped. -/

def parsePlayerInfoField (v : Json) (jsonParse : String → Option Json)
    (mk : List Json → ProcessInput) : ParsedProcessRequest :=
  match v with
  | Json.str str => parsePlayerInfoString (jsonParse str) mk
  | Json.arr items => ParsedProcessRequest.ok (mk items)
  | Json.null => ParsedProcessRequest.reject 400 "playerInfo invalide (tableau attendu)."
  | Json.bool _ => ParsedProcessRequest.reject 400 "playerInfo invalide (tableau attendu)."
  | Json.num _ => ParsedProcessRequest.reject 400 "playerInfo invalide (tableau attendu)."
  | Json.obj _ => ParsedProcessRequest.reject 400 "playerInfo invalide (tableau attendu)."

/-- `parseProcessRequest`.  `JSON.parse` is the JS builtin, passed in as
`jsonParse` (`none` models a parse exception). -/

def parseProcessRequest (req : ApiRequest) (jsonParse : String → Option Json) :
    ParsedProcessRequest :=
  let transcriptText := transcriptTextOf req
  if jsTrim transcriptText = "" then
    ParsedProcessRequest.reject 400 "Aucun transcript fourni."
  else
    let universeContext := jsonStringOr req.universeContext
    let sessionHistory := jsonStringOr req.sessionHistory
    let universeName :=
      match req.universeName with
      | some (Json.str s) => if jsTrim s ≠ "" then jsTrim s else "generic"
      | _ => "generic"
    let transcriptNameFromBody := jsonStringOr req.transcriptName
    let transcriptName :=
      match req.fileName with
      | some n =>
        if jsTrim n ≠ "" then jsTrim n
        else if jsTrim transcriptNameFromBody ≠ "" then jsTrim transcriptNameFromBody
        else "transcript.txt"
      | none =>
        if jsTrim transcriptNameFromBody ≠ "" then jsTrim transcriptNameFromBody
        else "transcript.txt"
    parsePlayerInfoField (playerInfoField req) jsonParse (fun items =>
      { rawTranscript := transcriptText
        transcriptName := transcriptName
        universeContext := universeContext
        sessionHistory := sessionHistory
        universeName := universeName
        playerInfo := items.filterMap parsePlayerDraft })

/-- `ProcessJobSummary`. -/

structure ProcessJobSummary where
  id : String
  status : JobStatus
  createdAt : String
  updatedAt : String
  transcriptName : String
  universeName : String
  playersCount : Nat
  error : Option String

/-- `toProcessJobSummary`. -/

def toProcessJobSummary (job : ProcessJob) : ProcessJobSummary :=
  { id := job.id
    status := job.status
    createdAt := job.createdAt
    updatedAt := job.updatedAt
    transcriptName := job.transcriptName
    universeName := job.universeName
    playersCount := job.playerInfo.length
    error := job.error }

inductive JobsApiResult where
  | clientError (status : Nat) (message : String)
  | accepted (status : Nat) (summary : ProcessJobSummary)

/-- The response and created job for a parse outcome. -/

def postJobsResult (uuid now : String) :
    ParsedProcessRequest → JobsApiResult × Option ProcessJob
  | ParsedProcessRequest.reject st m => (JobsApiResult.clientError st m, none)
  | ParsedProcessRequest.ok input =>
    (JobsApiResult.accepted 202 (toProcessJobSummary (createProcessJob uuid now input)),
      some (createProcessJob uuid now input))

/-- `POST /api/jobs`: reject without creating a job, or create the pending
job, start its run asynchronously, and answer `202` with its summary. -/

def postJobs (req : ApiRequest) (jsonParse : String → Option Json)
    (uuid now : String) : JobsApiResult × Option ProcessJob :=
  postJobsResult uuid now (parseProcessRequest req jsonParse)

/-- Whether `JSON.parse`'s outcome on a string-valued `playerInfo` is
rejected. -/

def rosterStringMalformed (p : Option Json) : Bool :=
  match p with
  | none => true
  | some (Json.arr _) => false
  | some Json.null => true
  | some (Json.bool _) => true
  | some (Json.num _) => true
  | some (Json.str _) => true
  | some (Json.obj _) => true

/-- The roster shapes the parser rejects: a `playerInfo` that is an
unparseable JSON string, a string parsing to a non-array, or any other
non-array value. -/

def rosterMalformed (req : ApiRequest) (jsonParse : String → Option Json) : Bool :=
  match playerInfoField req with
  | Json.str str => rosterStringMalformed (jsonParse str)
  | Json.arr _ => false
  | Json.null => true
  | Json.bool _ => true
  | Json.num _ => true
  | Json.obj _ => true

/-- A well-formed sample submission. -/

def sampleRequest : ApiRequest :=
  { transcript := some (Json.str "bonjour le monde")
    playerInfo := some (Json.arr [Json.obj [("playerName", Json.str "Emilie"),
      ("characterName", Json.str "Yumi")]]) }

/-- JS whitespace accepted by `Number.parseInt`. -/

def isJsSpace (c : Char) : Bool :=
  c == ' ' || c == '\t' || c == '\n' || c == '\r' || c == '\x0b' || c == '\x0c'

/-- `Number.parseInt(str, 10)`: skip leading whitespace, read an optional
sign and the longest digit run; `none` models `NaN`. -/

def jsParseInt (str : String) : Option Int :=
  let l := str.toList.dropWhile isJsSpace
  let signAndRest : Int × List Char :=
    match l with
    | '-' :: rest => (-1, rest)
    | '+' :: rest => (1, rest)
    | _ => (1, l)
  let digits := signAndRest.2.takeWhile (fun c => c.isDigit)
  if digits.isEmpty then none
  else
    some (signAndRest.1 *
      digits.foldl (fun acc c => acc * 10 + ((c.toNat : Int) - ('0'.toNat : Int))) 0)

/-- The route's computation of `fromEventId`: a missing `from` is read as
`"0"`, and a `NaN` or negative parse falls back to `0`. -/

def streamFromEventId (qFrom : Option String) : Nat :=
  match jsParseInt (qFrom.getD "0") with
  | some n => if 0 ≤ n then n.toNat else 0
  | none => 0

@[simp] theorem summaryIds_nil : summaryIds [] = [] := rfl

@[simp] theorem summaryIds_cons (s : SceneSummary) (l : List SceneSummary) :
    summaryIds (s :: l) = s.sceneId :: summaryIds l := rfl

@[simp] theorem summaryIds_append (a b : List SceneSummary) :
    summaryIds (a ++ b) = summaryIds a ++ summaryIds b := by
  simp [summaryIds]

@[simp] theorem chunkArray_nil {α : Type} (size : Nat) :
    chunkArray ([] : List α) size = [] := by
  cases size <;> rfl

theorem mapSetSummary_ids (m : List SceneSummary) (s : SceneSummary) :
    summaryIds (mapSetSummary m s) =
      if s.sceneId ∈ summaryIds m then summaryIds m else summaryIds m ++ [s.sceneId] := by
  induction m with
  | nil => simp [mapSetSummary]
  | cons t rest ih =>
    by_cases h : t.sceneId = s.sceneId
    · simp [mapSetSummary, h]
    · have hmemiff : s.sceneId ∈ summaryIds (t :: rest) ↔ s.sceneId ∈ summaryIds rest := by
        simp only [summaryIds_cons, List.mem_cons]
        constructor
        · rintro (hc | hc)
          · exact absurd hc.symm h
          · exact hc
        · exact Or.inr
      by_cases hmem : s.sceneId ∈ summaryIds rest
      · rw [if_pos (hmemiff.mpr hmem)]
        simp only [mapSetSummary, if_neg h, summaryIds_cons, ih, if_pos hmem]
      · rw [if_neg (fun hc => hmem (hmemiff.mp hc))]
        simp only [mapSetSummary, if_neg h, summaryIds_cons, ih, if_neg hmem,
          List.cons_append]

theorem mapSetSummary_nodup (m : List SceneSummary) (s : SceneSummary)
    (h : (summaryIds m).Nodup) : (summaryIds (mapSetSummary m s)).Nodup := by
  rw [mapSetSummary_ids]
  by_cases hmem : s.sceneId ∈ summaryIds m
  · simpa [hmem] using h
  · simp only [hmem, if_false]
    exact List.Nodup.append h (List.nodup_singleton _) (by simpa using hmem)

theorem mem_mapSetSummary (m : List SceneSummary) (s t : SceneSummary)
    (h : (summaryIds m).Nodup) :
    t ∈ mapSetSummary m s ↔ t = s ∨ (t ∈ m ∧ t.sceneId ≠ s.sceneId) := by
  induction m with
  | nil => simp [mapSetSummary]
  | cons u rest ih =>
    have hcons := List.nodup_cons.mp (by simpa using h)
    have hrest : (summaryIds rest).Nodup := hcons.2
    have hu : u.sceneId ∉ summaryIds rest := hcons.1
    by_cases hc : u.sceneId = s.sceneId
    · simp only [mapSetSummary, if_pos hc, List.mem_cons]
      constructor
      · rintro (rfl | hm)
        · exact Or.inl rfl
        · refine Or.inr ⟨Or.inr hm, ?_⟩
          intro hts
          apply hu
          rw [hc]
          have hmap : t.sceneId ∈ summaryIds rest :=
            List.mem_map_of_mem (f := fun x => x.sceneId) hm
          rwa [hts] at hmap
      · rintro (rfl | ⟨rfl | hm', hne⟩)
        · exact Or.inl rfl
        · exact absurd hc hne
        · exact Or.inr hm'
    · simp only [mapSetSummary, if_neg hc, List.mem_cons, ih hrest]
      constructor
      · rintro (rfl | rfl | ⟨hm, hne⟩)
        · exact Or.inr ⟨Or.inl rfl, fun hts => hc hts⟩
        · exact Or.inl rfl
        · exact Or.inr ⟨Or.inr hm, hne⟩
      · rintro (rfl | ⟨rfl | hm, hne⟩)
        · exact Or.inr (Or.inl rfl)
        · exact Or.inl rfl
        · exact Or.inr (Or.inr ⟨hm, hne⟩)

/-- Membership after folding a nodup-keyed batch into the map. -/
theorem mem_foldl_mapSetSummary (b : List SceneSummary) :
    ∀ (m : List SceneSummary), (summaryIds m).Nodup → (summaryIds b).Nodup →
    ∀ t, t ∈ b.foldl mapSetSummary m ↔
      (t ∈ b ∨ (t ∈ m ∧ t.sceneId ∉ summaryIds b)) := by
  induction b with
  | nil => intro m _ _ t; simp
  | cons s rest ih =>
    intro m hm hb t
    have hbrest : (summaryIds rest).Nodup := by
      simpa [summaryIds] using hb.of_cons
    have hs : s.sceneId ∉ summaryIds rest := by
      have := hb
      simp only [summaryIds, List.map_cons, List.nodup_cons] at this
      exact this.1
    have hm' : (summaryIds (mapSetSummary m s)).Nodup := mapSetSummary_nodup m s hm
    simp only [List.foldl_cons]
    rw [ih (mapSetSummary m s) hm' hbrest t]
    rw [mem_mapSetSummary m s t hm]
    constructor
    · rintro (hmem | ⟨rfl | ⟨hmm, hne⟩, hnot⟩)
      · exact Or.inl (List.mem_cons_of_mem _ hmem)
      · exact Or.inl (List.mem_cons_self _ _)
      · refine Or.inr ⟨hmm, ?_⟩
        simp only [summaryIds, List.map_cons, List.mem_cons]
        rintro (h1 | h2)
        · exact hne h1
        · exact hnot h2
    · rintro (hmem | ⟨hmm, hnot⟩)
      · rcases List.mem_cons.mp hmem with rfl | hmem'
        · exact Or.inr ⟨Or.inl rfl, hs⟩
        · exact Or.inl hmem'
      · refine Or.inr ⟨Or.inr ⟨hmm, ?_⟩, ?_⟩
        · intro hc
          apply hnot
          simp [summaryIds, hc]
        · intro hc
          apply hnot
          simp only [summaryIds, List.map_cons, List.mem_cons]
          exact Or.inr hc

theorem nodup_foldl_mapSetSummary (b : List SceneSummary) :
    ∀ (m : List SceneSummary), (summaryIds m).Nodup →
      (summaryIds (b.foldl mapSetSummary m)).Nodup := by
  induction b with
  | nil => intro m hm; simpa using hm
  | cons s rest ih =>
    intro m hm
    exact ih (mapSetSummary m s) (mapSetSummary_nodup m s hm)

theorem perm_insertBySceneId (s : SceneSummary) (l : List SceneSummary) :
    List.Perm (insertBySceneId s l) (s :: l) := by
  induction l with
  | nil => rfl
  | cons t rest ih =>
    by_cases h : s.sceneId ≤ t.sceneId
    · simp [insertBySceneId, h]
    · simp only [insertBySceneId, if_neg h]
      exact (ih.cons t).trans (List.Perm.swap s t rest)

theorem sorted_insertBySceneId (s : SceneSummary) (l : List SceneSummary)
    (h : l.Sorted bySceneIdLE) : (insertBySceneId s l).Sorted bySceneIdLE := by
  induction l with
  | nil => simp [insertBySceneId, List.sorted_singleton]
  | cons t rest ih =>
    rcases List.sorted_cons.mp h with ⟨ht, hrest⟩
    by_cases hle : s.sceneId ≤ t.sceneId
    · simp only [insertBySceneId, if_pos hle]
      refine List.sorted_cons.mpr ⟨?_, h⟩
      intro b hb
      rcases List.mem_cons.mp hb with rfl | hb'
      · exact hle
      · exact le_trans hle (ht b hb')
    · simp only [insertBySceneId, if_neg hle]
      refine List.sorted_cons.mpr ⟨?_, ih hrest⟩
      intro b hb
      rcases List.mem_cons.mp ((perm_insertBySceneId s rest).mem_iff.mp hb) with rfl | hb'
      · exact le_of_lt (lt_of_not_le hle)
      · exact ht b hb'

theorem perm_sortBySceneId (l : List SceneSummary) : List.Perm (sortBySceneId l) l := by
  induction l with
  | nil => rfl
  | cons s rest ih =>
    exact (perm_insertBySceneId s (sortBySceneId rest)).trans (ih.cons s)

theorem sorted_sortBySceneId (l : List SceneSummary) :
    (sortBySceneId l).Sorted bySceneIdLE := by
  induction l with
  | nil => simp [sortBySceneId]
  | cons s rest ih => exact sorted_insertBySceneId s (sortBySceneId rest) ih

/-- C6: the `sceneSummaries` reducer, on duplicate-free inputs, keeps at
most one entry per scene id; an entry of the stage output `b` replaces
the entry of the prior list `a` with the same scene id, entries of `a`
whose ids do not occur in `b` are kept unchanged, and the result is
sorted by ascending scene id. -/
theorem sceneSummariesReducer_spec (a b : List SceneSummary)
    (ha : (summaryIds a).Nodup) (hb : (summaryIds b).Nodup) :
    (summaryIds (sceneSummariesReducer a b)).Nodup ∧
      (∀ t, t ∈ sceneSummariesReducer a b ↔
        (t ∈ b ∨ (t ∈ a ∧ t.sceneId ∉ summaryIds b))) ∧
      (sceneSummariesReducer a b).Sorted bySceneIdLE := by
  have hfold : (a ++ b).foldl mapSetSummary [] =
      b.foldl mapSetSummary (a.foldl mapSetSummary []) := List.foldl_append ..
  have hanodup : (summaryIds (a.foldl mapSetSummary [])).Nodup :=
    nodup_foldl_mapSetSummary a [] (by simp)
  have hamem : ∀ t, t ∈ a.foldl mapSetSummary [] ↔ t ∈ a := by
    intro t
    rw [mem_foldl_mapSetSummary a [] (by simp) ha t]
    simp
  have hmem : ∀ t, t ∈ (a ++ b).foldl mapSetSummary [] ↔
      (t ∈ b ∨ (t ∈ a ∧ t.sceneId ∉ summaryIds b)) := by
    intro t
    rw [hfold, mem_foldl_mapSetSummary b (a.foldl mapSetSummary []) hanodup hb t, hamem]
  have hnodup : (summaryIds ((a ++ b).foldl mapSetSummary [])).Nodup := by
    rw [hfold]
    exact nodup_foldl_mapSetSummary b _ hanodup
  have hperm : List.Perm (sceneSummariesReducer a b) ((a ++ b).foldl mapSetSummary []) :=
    perm_sortBySceneId _
  refine ⟨?_, ?_, sorted_sortBySceneId _⟩
  · have hmapperm : List.Perm
        (List.map (fun x => x.sceneId) (sceneSummariesReducer a b))
        (List.map (fun x => x.sceneId) ((a ++ b).foldl mapSetSummary [])) :=
      hperm.map _
    simp only [summaryIds] at hnodup ⊢
    exact hmapperm.nodup_iff.mpr hnodup
  · intro t
    rw [hperm.mem_iff, hmem]

theorem chunkArrayAux_fuel_irrel {α : Type} (s : Nat) :
    ∀ (f1 : Nat) (l : List α) (f2 : Nat), l.length ≤ f1 → l.length ≤ f2 →
      chunkArrayAux f1 l s = chunkArrayAux f2 l s := by
  intro f1
  induction f1 with
  | zero =>
    intro l f2 h1 _
    have : l = [] := List.length_eq_zero.mp (Nat.le_zero.mp h1)
    subst this
    cases f2 <;> rfl
  | succ f ih =>
    intro l f2 h1 h2
    match l with
    | [] => cases f2 <;> rfl
    | x :: xs =>
      match f2 with
      | 0 => simp at h2
      | f2' + 1 =>
        simp only [chunkArrayAux]
        congr 1
        apply ih
        · simp only [List.length_drop, List.length_cons] at h1 ⊢
          omega
        · simp only [List.length_drop, List.length_cons] at h2 ⊢
          omega

/-- Unfolding equation for `chunkArray` on a nonempty list. -/
theorem chunkArray_cons_eq {α : Type} (x : α) (xs : List α) (s : Nat) :
    chunkArray (x :: xs) (s + 1) =
      (x :: xs).take (s + 1) :: chunkArray (xs.drop s) (s + 1) := by
  simp only [chunkArray, List.length_cons, chunkArrayAux]
  congr 1
  apply chunkArrayAux_fuel_irrel
  · simp only [List.length_drop]
    omega
  · exact le_rfl

theorem chunkArray_flatten {α : Type} (l : List α) (s : Nat) :
    (chunkArray l (s + 1)).flatten = l := by
  have key : ∀ (n : Nat) (l : List α), l.length = n →
      (chunkArray l (s + 1)).flatten = l := by
    intro n
    induction n using Nat.strong_induction_on with
    | _ n ih =>
      intro l hl
      match l with
      | [] => simp
      | x :: xs =>
        rw [chunkArray_cons_eq]
        simp only [List.flatten_cons]
        have hlen : (xs.drop s).length < n := by
          simp only [List.length_drop]
          simp only [List.length_cons] at hl
          omega
        rw [ih (xs.drop s).length hlen (xs.drop s) rfl]
        have hdrop : xs.drop s = (x :: xs).drop (s + 1) := rfl
        rw [hdrop, List.take_append_drop]
  exact key l.length l rfl

theorem chunkArray_mem_size {α : Type} (l : List α) (s : Nat) :
    ∀ b ∈ chunkArray l (s + 1), b.length ≤ s + 1 ∧ b ≠ [] := by
  have key : ∀ (n : Nat) (l : List α), l.length = n →
      ∀ b ∈ chunkArray l (s + 1), b.length ≤ s + 1 ∧ b ≠ [] := by
    intro n
    induction n using Nat.strong_induction_on with
    | _ n ih =>
      intro l hl
      match l with
      | [] => simp
      | x :: xs =>
        rw [chunkArray_cons_eq]
        intro b hb
        rcases List.mem_cons.mp hb with rfl | hb'
        · exact ⟨by simp, by simp⟩
        · have hlen : (xs.drop s).length < n := by
            simp only [List.length_drop]
            simp only [List.length_cons] at hl
            omega
          exact ih (xs.drop s).length hlen (xs.drop s) rfl b hb'
  exact key l.length l rfl

theorem mem_foldl_jsSetDedup (l : List Int) :
    ∀ (acc : List Int) (x : Int),
      x ∈ l.foldl (fun acc x => if x ∈ acc then acc else acc ++ [x]) acc ↔
        x ∈ acc ∨ x ∈ l := by
  induction l with
  | nil => intro acc x; simp
  | cons y rest ih =>
    intro acc x
    simp only [List.foldl_cons]
    rw [ih]
    by_cases hy : y ∈ acc
    · simp only [if_pos hy, List.mem_cons]
      constructor
      · rintro (h | h)
        · exact Or.inl h
        · exact Or.inr (Or.inr h)
      · rintro (h | rfl | h)
        · exact Or.inl h
        · exact Or.inl hy
        · exact Or.inr h
    · simp only [if_neg hy, List.mem_append, List.mem_singleton, List.mem_cons]
      tauto

theorem mem_jsSetDedup (l : List Int) (x : Int) : x ∈ jsSetDedup l ↔ x ∈ l := by
  rw [jsSetDedup, mem_foldl_jsSetDedup]
  simp

theorem carriedIssues_sceneId_isSome (s : WorkflowState) :
    ∀ i ∈ carriedIssues s, i.sceneId.isSome = true := by
  intro i hi
  unfold carriedIssues at hi
  cases hids : validatorIdsToValidate s with
  | none => rw [hids] at hi; simp at hi
  | some ids =>
    rw [hids] at hi
    rcases List.mem_filter.mp hi with ⟨_, hp⟩
    cases hsc : i.sceneId with
    | none => rw [hsc] at hp; simp at hp
    | some id => simp

theorem aggregated_sceneId_isSome (s : WorkflowState)
    (vo : Scene → SceneSummary → List PerSceneIssue) :
    ∀ i ∈ validatorAggregatedIssues s vo, i.sceneId.isSome = true := by
  intro i hi
  unfold validatorAggregatedIssues at hi
  rcases List.mem_append.mp hi with hc | ht
  · exact carriedIssues_sceneId_isSome s i hc
  · rcases List.mem_flatten.mp ht with ⟨inner, hinner, hiinner⟩
    rcases List.mem_flatten.mp hinner with ⟨outer, houter, hoinner⟩
    rcases List.mem_map.mp houter with ⟨batch, _, rfl⟩
    rcases List.mem_map.mp hoinner with ⟨pair, _, rfl⟩
    rcases List.mem_map.mp hiinner with ⟨raw, _, rfl⟩
    simp [taggedIssue]

theorem mem_errorSceneIds (issues : List ValidationIssue) (id : Int) :
    id ∈ errorSceneIds issues ↔
      ∃ i ∈ issues, i.severity = Severity.error ∧ i.sceneId = some id := by
  unfold errorSceneIds
  rw [mem_jsSetDedup, List.mem_filterMap]
  constructor
  · rintro ⟨i, hi, hf⟩
    by_cases hsev : i.severity = Severity.error
    · refine ⟨i, hi, hsev, ?_⟩
      rw [if_pos (by simp [hsev])] at hf
      exact hf
    · rw [if_neg (by simp [hsev])] at hf
      exact absurd hf (by simp)
  · rintro ⟨i, hi, hsev, hsc⟩
    exact ⟨i, hi, by rw [if_pos (by simp [hsev])]; exact hsc⟩

theorem errorSceneIds_ne_nil_iff (issues : List ValidationIssue)
    (h : ∀ i ∈ issues, i.sceneId.isSome = true) :
    errorSceneIds issues ≠ [] ↔ reportHasErrors issues = true := by
  constructor
  · intro hne
    rcases List.exists_mem_of_ne_nil _ hne with ⟨id, hid⟩
    rcases (mem_errorSceneIds issues id).mp hid with ⟨i, hi, hsev, _⟩
    exact List.any_eq_true.mpr ⟨i, hi, by simp [hsev]⟩
  · intro herr
    rcases List.any_eq_true.mp herr with ⟨i, hi, hsev⟩
    have hsev' : i.severity = Severity.error := by
      cases hsevv : i.severity
      · rfl
      · simp [hsevv] at hsev
      · simp [hsevv] at hsev
    rcases Option.isSome_iff_exists.mp (h i hi) with ⟨id, hid⟩
    intro hnil
    have : id ∈ errorSceneIds issues :=
      (mem_errorSceneIds issues id).mpr ⟨i, hi, hsev', hid⟩
    rw [hnil] at this
    simp at this

/-- Fields of the state right after a completed validate pass. -/
theorem validator_post_fields (s : WorkflowState)
    (vo : Scene → SceneSummary → List PerSceneIssue) :
    (applyUpdate s (validatorUpdate s vo)).validationReport.issues
        = validatorAggregatedIssues s vo ∧
      (applyUpdate s (validatorUpdate s vo)).retryCount = s.retryCount + 1 := by
  constructor <;> simp [applyUpdate, validatorUpdate]

theorem validator_route_iff (s : WorkflowState)
    (vo : Scene → SceneSummary → List PerSceneIssue) :
    routeAfterValidator s vo = Route.summarizer ↔
      (reportHasErrors (validatorAggregatedIssues s vo) = true ∧
        s.retryCount + 1 < MAX_RETRIES) := by
  unfold routeAfterValidator validatorRouter
  rcases validator_post_fields s vo with ⟨hiss, hretry⟩
  by_cases herr : reportHasErrors (validatorAggregatedIssues s vo) = true
  · by_cases hlt : s.retryCount + 1 < MAX_RETRIES
    · rw [if_pos]
      · simp [herr, hlt]
      · rw [hretry]
        have : (applyUpdate s (validatorUpdate s vo)).validationReport.issues.any
            (fun i => i.severity == Severity.error) = true := by
          rw [hiss]; exact herr
        simp [this, hlt]
    · rw [if_neg]
      · simp [hlt]
      · rw [hretry]
        simp [hlt]
  · rw [if_neg]
    · simp [herr]
    · have : (applyUpdate s (validatorUpdate s vo)).validationReport.issues.any
          (fun i => i.severity == Severity.error) = false := by
        rw [hiss]
        exact Bool.not_eq_true _ ▸ (by simpa [reportHasErrors] using herr)
      simp [this]

theorem validator_pending_eq (s : WorkflowState)
    (vo : Scene → SceneSummary → List PerSceneIssue)
    (h : routeAfterValidator s vo = Route.summarizer) :
    (applyUpdate s (validatorUpdate s vo)).pendingSceneIds
      = errorSceneIds (validatorAggregatedIssues s vo) := by
  rcases (validator_route_iff s vo).mp h with ⟨herr, hlt⟩
  have hne : errorSceneIds (validatorAggregatedIssues s vo) ≠ [] :=
    (errorSceneIds_ne_nil_iff _ (aggregated_sceneId_isSome s vo)).mpr herr
  have hlen : 0 < (errorSceneIds (validatorAggregatedIssues s vo)).length :=
    List.length_pos.mpr hne
  simp only [applyUpdate, validatorUpdate, herr, if_pos]
  simp [herr, hlen, hlt, decide_eq_true_eq]

/-- C1, counterexample to the claim as stated: in the sample run, the
second validate pass completes with `E = {1}` non-empty and a
pre-pass `retryCount = 1 < MAX_RETRIES = 2`, yet the router sends the
run to the formatter, because the router reads the retry counter *after*
the validator incremented it. -/
theorem validator_retry_edge_cx :
    sampleBeforeValidate2.retryCount = 1 ∧
      sampleBeforeValidate2.retryCount < MAX_RETRIES ∧
      errorSceneIds (applyUpdate sampleBeforeValidate2
          (validatorUpdate sampleBeforeValidate2 sampleIssueOracle)).validationReport.issues
        = [1] ∧
      routeAfterValidator sampleBeforeValidate2 sampleIssueOracle = Route.formatter := by
  decide

/-- C1 (amended): after a completed validate pass the retry counter has
increased by exactly 1; the run routes back to Summarize iff the set `E`
of scene ids carrying an error-severity issue is non-empty and the
*incremented* retry count (pre-pass count + 1) is below `MAX_RETRIES`;
when the retry edge is taken the pending scene ids equal `E`. -/
theorem validator_retry_edge (s : WorkflowState)
    (vo : Scene → SceneSummary → List PerSceneIssue) :
    (applyUpdate s (validatorUpdate s vo)).retryCount = s.retryCount + 1 ∧
      (routeAfterValidator s vo = Route.summarizer ↔
        (errorSceneIds (applyUpdate s
            (validatorUpdate s vo)).validationReport.issues ≠ [] ∧
          s.retryCount + 1 < MAX_RETRIES)) ∧
      (routeAfterValidator s vo = Route.summarizer →
        (applyUpdate s (validatorUpdate s vo)).pendingSceneIds
          = errorSceneIds (applyUpdate s
              (validatorUpdate s vo)).validationReport.issues) := by
  rcases validator_post_fields s vo with ⟨hiss, hretry⟩
  refine ⟨hretry, ?_, ?_⟩
  · rw [hiss, errorSceneIds_ne_nil_iff _ (aggregated_sceneId_isSome s vo)]
    exact validator_route_iff s vo
  · intro h
    rw [hiss]
    exact validator_pending_eq s vo h

/-- C1, witness: on the first validate pass of the sample run the retry
edge is taken and the pending ids equal the error scene ids. -/
theorem validator_retry_edge_witness :
    routeAfterValidator sampleBeforeValidate1 sampleIssueOracle = Route.summarizer ∧
      (applyUpdate sampleBeforeValidate1
          (validatorUpdate sampleBeforeValidate1 sampleIssueOracle)).pendingSceneIds
        = errorSceneIds (applyUpdate sampleBeforeValidate1
            (validatorUpdate sampleBeforeValidate1 sampleIssueOracle)).validationReport.issues :=
  ⟨by decide,
    (validator_retry_edge sampleBeforeValidate1 sampleIssueOracle).2.2 (by decide)⟩

/-- C7: the summarizer's scene list excludes `meta`/`pause` scenes; its
batches partition that list in order into chunks of at most 5 (each
non-empty); batch results concatenated in batch order equal the per-scene
results over the eligible list in order; and that is exactly the summary
list the node merges back into the state. -/
theorem summarizer_batching (s : WorkflowState) (f : Scene → SceneSummary) :
    (∀ sc ∈ scenesToProcess s, sc.type ≠ SceneType.meta ∧ sc.type ≠ SceneType.pause) ∧
      (summarizerBatches s).flatten = scenesToProcess s ∧
      (∀ b ∈ summarizerBatches s, b.length ≤ 5 ∧ b ≠ []) ∧
      ((summarizerBatches s).map
          (List.map (fun sc => { f sc with sceneId := sc.id }))).flatten
        = (scenesToProcess s).map (fun sc => { f sc with sceneId := sc.id }) ∧
      (scenesToProcess s ≠ [] →
        (summarizerUpdate s f).sceneSummaries
          = some (((summarizerBatches s).map
              (List.map (fun sc => { f sc with sceneId := sc.id }))).flatten)) := by
  have hflat : (summarizerBatches s).flatten = scenesToProcess s := by
    have := chunkArray_flatten (scenesToProcess s) 4
    simpa [summarizerBatches, SCENE_CONCURRENCY] using this
  refine ⟨?_, hflat, ?_, ?_, ?_⟩
  · intro sc hsc
    have hmem := (List.mem_filter.mp hsc).2
    unfold isNarrativeScene at hmem
    constructor
    · intro hc
      rw [hc] at hmem
      simp at hmem
    · intro hc
      rw [hc] at hmem
      simp at hmem
  · have := chunkArray_mem_size (scenesToProcess s) 4
    simpa [summarizerBatches, SCENE_CONCURRENCY] using this
  · rw [← List.map_flatten, hflat]
  · intro hne
    have hnotempty : (scenesToProcess s).isEmpty = false := by
      cases h : scenesToProcess s with
      | nil => exact absurd h hne
      | cons a l => rfl
    simp only [summarizerUpdate, hnotempty, Bool.false_eq_true, if_false]
    rfl

/-- C7, witness: instantiated on the sample run's post-analyst state. -/
theorem summarizer_batching_witness :
    scenesToProcess sampleAfterAnalyst ≠ [] ∧
      (summarizerUpdate sampleAfterAnalyst sampleSummaryOracle).sceneSummaries
        = some (((summarizerBatches sampleAfterAnalyst).map
            (List.map (fun sc => { sampleSummaryOracle sc with sceneId := sc.id }))).flatten) :=
  ⟨by decide,
    (summarizer_batching sampleAfterAnalyst sampleSummaryOracle).2.2.2.2 (by decide)⟩

/-- C8, counterexample to the claim as stated: right after the analyst
node of the sample run, the pending set holds scene id 1 although the
validation report carries no issues at all (the claimed invariant fails
at this point of the run). -/
theorem pending_ids_invariant_cx :
    sampleAfterAnalyst.pendingSceneIds = [1] ∧
      sampleAfterAnalyst.validationReport.issues = [] := by
  decide

/-- C8 (amended): when a completed validate pass takes the retry edge,
every pending scene id carries at least one error-severity issue in the
validation report just produced; right after Analyze, by contrast, the
pending set holds every narrative scene id even though no validation
issues exist yet. -/
theorem pending_ids_error_subset (s : WorkflowState)
    (vo : Scene → SceneSummary → List PerSceneIssue)
    (h : routeAfterValidator s vo = Route.summarizer) :
    ∀ id ∈ (applyUpdate s (validatorUpdate s vo)).pendingSceneIds,
      ∃ i ∈ (applyUpdate s (validatorUpdate s vo)).validationReport.issues,
        i.severity = Severity.error ∧ i.sceneId = some id := by
  intro id hid
  rw [validator_pending_eq s vo h] at hid
  rcases (mem_errorSceneIds _ id).mp hid with ⟨i, hi, hsev, hsc⟩
  refine ⟨i, ?_, hsev, hsc⟩
  rw [(validator_post_fields s vo).1]
  exact hi

/-- C8, witness: on the first validate pass of the sample run the retry
edge is taken, scene 1 is pending, and it carries an error-severity
issue in the report just produced. -/
theorem pending_ids_error_subset_witness :
    routeAfterValidator sampleBeforeValidate1 sampleIssueOracle = Route.summarizer ∧
      (1 : Int) ∈ (applyUpdate sampleBeforeValidate1
        (validatorUpdate sampleBeforeValidate1 sampleIssueOracle)).pendingSceneIds ∧
      ∃ i ∈ (applyUpdate sampleBeforeValidate1
          (validatorUpdate sampleBeforeValidate1 sampleIssueOracle)).validationReport.issues,
        i.severity = Severity.error ∧ i.sceneId = some 1 :=
  ⟨by decide, by decide,
    pending_ids_error_subset sampleBeforeValidate1 sampleIssueOracle (by decide) 1
      (by decide)⟩

/-- C6, witness: re-summarizing scene 3 replaces its prior entry without
duplicating it or touching scene 1. -/
theorem sceneSummariesReducer_spec_witness :
    (summaryIds [priorSummary1, priorSummary3]).Nodup ∧
      (summaryIds [replacementSummary3]).Nodup ∧
      ((summaryIds (sceneSummariesReducer [priorSummary1, priorSummary3]
          [replacementSummary3])).Nodup ∧
        (∀ t, t ∈ sceneSummariesReducer [priorSummary1, priorSummary3]
            [replacementSummary3] ↔
          (t ∈ [replacementSummary3] ∨
            (t ∈ [priorSummary1, priorSummary3] ∧
              t.sceneId ∉ summaryIds [replacementSummary3]))) ∧
        (sceneSummariesReducer [priorSummary1, priorSummary3]
          [replacementSummary3]).Sorted bySceneIdLE) ∧
      sceneSummariesReducer [priorSummary1, priorSummary3] [replacementSummary3]
        = [priorSummary1, replacementSummary3] :=
  ⟨by decide, by decide,
    sceneSummariesReducer_spec [priorSummary1, priorSummary3] [replacementSummary3]
      (by decide) (by decide),
    by decide⟩

theorem eventIdsOK_create (uuid now : String) (input : ProcessInput) :
    eventIdsOK (createProcessJob uuid now input) := by
  constructor <;> rfl

theorem eventIdsOK_applyOp (j : ProcessJob) (op : JobOp) (h : eventIdsOK j) :
    eventIdsOK (applyOp j op) := by
  rcases h with ⟨hmap, hnext⟩
  cases op with
  | setStatus st err now => exact ⟨hmap, hnext⟩
  | publish t d now =>
    constructor
    · simp only [applyOp, publishProcessJobEvent, List.map_append, List.length_append,
        hmap, hnext, List.map_cons, List.map_nil, List.length_cons, List.length_nil]
      rw [show (j.events.length + (0 + 1)) = j.events.length + 1 by omega,
        List.range'_concat]
      simp only [List.append_cancel_left_eq, List.cons.injEq, and_true]
      omega
    · simp only [applyOp, publishProcessJobEvent, List.length_append, hnext]
      simp

theorem eventIdsOK_applyOps (j : ProcessJob) (ops : List JobOp) (h : eventIdsOK j) :
    eventIdsOK (applyOps j ops) := by
  induction ops generalizing j with
  | nil => exact h
  | cons op rest ih => exact ih (applyOp j op) (eventIdsOK_applyOp j op h)

/-- C2: for a job created by `createProcessJob` and mutated by any
sequence of publish/status operations, the event ids in the log are
exactly `1, 2, …, n` in append order — each publish assigns the id one
greater than the previous event's, with no gaps and no duplicates. -/
theorem event_ids_sequential (uuid now : String) (input : ProcessInput)
    (ops : List JobOp) :
    (applyOps (createProcessJob uuid now input) ops).events.map (·.id)
      = List.range' 1 (applyOps (createProcessJob uuid now input) ops).events.length ∧
    (applyOps (createProcessJob uuid now input) ops).nextEventId
      = (applyOps (createProcessJob uuid now input) ops).events.length + 1 :=
  eventIdsOK_applyOps _ ops (eventIdsOK_create uuid now input)

theorem applyOps_events_append (j : ProcessJob) (ops : List JobOp) :
    ∃ tl, (applyOps j ops).events = j.events ++ tl := by
  induction ops generalizing j with
  | nil => exact ⟨[], by simp [applyOps]⟩
  | cons op rest ih =>
    rcases ih (applyOp j op) with ⟨tl, htl⟩
    cases op with
    | publish t d now =>
      exact ⟨⟨j.nextEventId, t, d, now⟩ :: tl, by
        simpa [applyOps, applyOp, publishProcessJobEvent] using htl⟩
    | setStatus st err now =>
      exact ⟨tl, by simpa [applyOps, applyOp, setProcessJobStatus] using htl⟩

theorem liveDelivered_run (j : ProcessJob) (body : List JobOp)
    (st : JobStatus) (err : Option String) (now1 : String)
    (t : String) (d : Json) (now2 : String)
    (hj : isTerminalJobStatus j.status = false)
    (hbody : nonTerminalOps body) (hterm : isTerminalJobStatus st = true) :
    liveDelivered j (body ++ [JobOp.setStatus st err now1, JobOp.publish t d now2])
      = (applyOps j (body ++ [JobOp.setStatus st err now1, JobOp.publish t d now2])).events.drop
          j.events.length := by
  induction body generalizing j with
  | nil =>
    simp only [List.nil_append, liveDelivered, applyOps, List.foldl_cons, List.foldl_nil,
      applyOp]
    have hst : isTerminalJobStatus
        (publishProcessJobEvent (setProcessJobStatus j st err now1) t d now2).status
          = true := hterm
    rw [if_pos hst]
    simp [publishProcessJobEvent, setProcessJobStatus]
  | cons op rest ih =>
    cases op with
    | publish pt pd pnow =>
      have hj' : isTerminalJobStatus (publishProcessJobEvent j pt pd pnow).status = false := hj
      have hrest : nonTerminalOps rest := fun op hop => hbody op (List.mem_cons_of_mem _ hop)
      simp only [List.cons_append, liveDelivered, List.append_eq, hj', Bool.false_eq_true,
        if_false]
      rw [ih (publishProcessJobEvent j pt pd pnow) hj' hrest]
      have hstep : applyOps j (JobOp.publish pt pd pnow ::
            (rest ++ [JobOp.setStatus st err now1, JobOp.publish t d now2]))
          = applyOps (publishProcessJobEvent j pt pd pnow)
              (rest ++ [JobOp.setStatus st err now1, JobOp.publish t d now2]) := rfl
      rw [hstep]
      rcases applyOps_events_append (publishProcessJobEvent j pt pd pnow)
        (rest ++ [JobOp.setStatus st err now1, JobOp.publish t d now2]) with ⟨tl, htl⟩
      rw [htl]
      simp only [publishProcessJobEvent]
      rw [List.drop_left, List.append_assoc, List.drop_left]
      simp
    | setStatus sst serr snow =>
      have hsst : isTerminalJobStatus sst = false := by
        have hmem := hbody _ (List.mem_cons_self _ _)
        simpa [isNonTerminalOp] using hmem
      have hj' : isTerminalJobStatus (setProcessJobStatus j sst serr snow).status = false := hsst
      have hrest : nonTerminalOps rest := fun op hop => hbody op (List.mem_cons_of_mem _ hop)
      simp only [List.cons_append, liveDelivered, List.append_eq]
      rw [ih (setProcessJobStatus j sst serr snow) hj' hrest]
      rfl

theorem pairwise_id_lt_of_eventIdsOK (j : ProcessJob) (h : eventIdsOK j) :
    j.events.Pairwise (fun a b => a.id < b.id) := by
  have hmap : (j.events.map (·.id)).Pairwise (· < ·) := by
    rw [h.1]
    exact List.pairwise_lt_range' 1 j.events.length
  exact (List.pairwise_map).mp hmap

/-- C3: for a subscriber with `from = k` on a well-formed job: the replay
phase delivers exactly the buffered events with `id ≥ k`; if the job is
already terminal the stream is just this replay; otherwise the subscriber
stays attached and additionally receives every event published from then
on, through the run's terminal transition and final event, after which
the listener is detached.  In all cases the delivered ids are strictly
increasing — each event arrives at most once and in id order. -/
theorem subscribe_replay_then_live (j0 : ProcessJob) (k : Nat)
    (body : List JobOp) (st : JobStatus) (err : Option String) (now1 : String)
    (t : String) (d : Json) (now2 : String)
    (hids : eventIdsOK j0) (hbody : nonTerminalOps body)
    (hterm : isTerminalJobStatus st = true) :
    (∀ e, e ∈ replayEvents j0 k ↔ (e ∈ j0.events ∧ k ≤ e.id)) ∧
      (isTerminalJobStatus j0.status = true →
        streamDelivered j0 k (body ++ [JobOp.setStatus st err now1, JobOp.publish t d now2])
          = replayEvents j0 k) ∧
      (isTerminalJobStatus j0.status = false →
        streamDelivered j0 k (body ++ [JobOp.setStatus st err now1, JobOp.publish t d now2])
          = replayEvents j0 k ++
            (applyOps j0 (body ++ [JobOp.setStatus st err now1,
              JobOp.publish t d now2])).events.drop j0.events.length) ∧
      (streamDelivered j0 k (body ++ [JobOp.setStatus st err now1,
          JobOp.publish t d now2])).Pairwise (fun a b => a.id < b.id) := by
  set ops := body ++ [JobOp.setStatus st err now1, JobOp.publish t d now2] with hops
  have hreplay_sub : List.Sublist (replayEvents j0 k) j0.events := List.filter_sublist _
  have hfinal : eventIdsOK (applyOps j0 ops) := eventIdsOK_applyOps j0 ops hids
  have hfinal_pairwise := pairwise_id_lt_of_eventIdsOK _ hfinal
  rcases applyOps_events_append j0 ops with ⟨tl, htl⟩
  refine ⟨?_, ?_, ?_, ?_⟩
  · intro e
    rw [replayEvents, List.mem_filter]
    simp
  · intro hstterm
    rw [streamDelivered, if_pos hstterm, List.append_nil]
  · intro hstlive
    rw [streamDelivered, if_neg (by rw [hstlive]; simp)]
    rw [liveDelivered_run j0 body st err now1 t d now2 hstlive hbody hterm]
  · by_cases hst : isTerminalJobStatus j0.status = true
    · rw [streamDelivered, if_pos hst, List.append_nil]
      have hpair0 := pairwise_id_lt_of_eventIdsOK j0 hids
      exact hpair0.sublist hreplay_sub
    · have hstf : isTerminalJobStatus j0.status = false := by
        cases hval : isTerminalJobStatus j0.status
        · rfl
        · exact absurd hval hst
      rw [streamDelivered, if_neg (by rw [hstf]; simp)]
      rw [liveDelivered_run j0 body st err now1 t d now2 hstf hbody hterm]
      have hdrop : (applyOps j0 ops).events.drop j0.events.length = tl := by
        rw [htl, List.drop_left]
      rw [hdrop]
      have hsub : List.Sublist (replayEvents j0 k ++ tl) (applyOps j0 ops).events := by
        rw [htl]
        exact hreplay_sub.append (List.Sublist.refl tl)
      exact hfinal_pairwise.sublist hsub

/-- C3, witness: a subscriber resuming from id 2 on the running
`sampleJob` replays events 2 and 3 and then receives the two live
events 4 and 5. -/
theorem subscribe_replay_then_live_witness :
    ((∀ e, e ∈ replayEvents sampleJob 2 ↔ (e ∈ sampleJob.events ∧ 2 ≤ e.id)) ∧
      (isTerminalJobStatus sampleJob.status = true →
        streamDelivered sampleJob 2 sampleTailOps = replayEvents sampleJob 2) ∧
      (isTerminalJobStatus sampleJob.status = false →
        streamDelivered sampleJob 2 sampleTailOps
          = replayEvents sampleJob 2 ++
            (applyOps sampleJob sampleTailOps).events.drop sampleJob.events.length) ∧
      (streamDelivered sampleJob 2 sampleTailOps).Pairwise (fun a b => a.id < b.id)) ∧
      (streamDelivered sampleJob 2 sampleTailOps).map (fun e => e.id) = [2, 3, 4, 5] := by
  constructor
  · exact subscribe_replay_then_live sampleJob 2
      [JobOp.publish "step:complete" Json.null "t4"] JobStatus.completed none "t5"
      "done" Json.null "t5" (by constructor <;> rfl)
      (by intro op hop; fin_cases hop; rfl) rfl
  · rfl

theorem chunkOpsList_publishes (job : ProcessJob) (cache : List SceneMeta)
    (c : WorkflowChunk) (now : String) : allPublishes (chunkOpsList job cache c now) := by
  intro op hop
  cases c with
  | preprocessor =>
    simp only [chunkOpsList, List.mem_cons, List.not_mem_nil, or_false] at hop
    rcases hop with rfl | rfl <;> rfl
  | analyst scenes sm em =>
    simp only [chunkOpsList, List.mem_cons, List.not_mem_nil, or_false] at hop
    rcases hop with rfl | rfl | rfl <;> rfl
  | summarizer n =>
    simp only [chunkOpsList, List.mem_cons, List.not_mem_nil, or_false] at hop
    rcases hop with rfl | rfl | rfl <;> rfl
  | validator report retryCount =>
    simp only [chunkOpsList, List.mem_cons] at hop
    rcases hop with rfl | hop'
    · rfl
    · split at hop'
      · simp only [List.mem_cons, List.not_mem_nil, or_false] at hop'
        rcases hop' with rfl | rfl <;> rfl
      · simp only [List.mem_cons, List.not_mem_nil, or_false] at hop'
        subst hop'
        rfl
  | formatter finalReport scenesJ entitiesJ reportId =>
    simp only [chunkOpsList, List.mem_cons, List.not_mem_nil, or_false] at hop
    rcases hop with rfl | rfl <;> rfl
  | custom ev payload =>
    simp only [chunkOpsList, List.mem_cons, List.not_mem_nil, or_false] at hop
    subst hop
    rfl

theorem chunksOps_publishes (job : ProcessJob) (cache : List SceneMeta)
    (chunks : List WorkflowChunk) (now : String) :
    allPublishes (chunksOps job cache chunks now) := by
  induction chunks generalizing cache with
  | nil => intro op hop; simp [chunksOps] at hop
  | cons c rest ih =>
    intro op hop
    simp only [chunksOps, List.mem_append] at hop
    rcases hop with h | h
    · exact chunkOpsList_publishes job cache c now op h
    · exact ih (chunkCacheUpdate cache c) op h

theorem applyOp_publish_status (j : ProcessJob) (op : JobOp)
    (h : isPublishOp op = true) : (applyOp j op).status = j.status := by
  cases op with
  | publish t d now => rfl
  | setStatus st err now => simp [isPublishOp] at h

theorem applyOps_publishes_status (j : ProcessJob) (ops : List JobOp)
    (h : allPublishes ops) : (applyOps j ops).status = j.status := by
  induction ops generalizing j with
  | nil => rfl
  | cons op rest ih =>
    have hop := h op (List.mem_cons_self _ _)
    have hrest : allPublishes rest := fun o ho => h o (List.mem_cons_of_mem _ ho)
    calc (applyOps j (op :: rest)).status
        = (applyOps (applyOp j op) rest).status := rfl
      _ = (applyOp j op).status := ih (applyOp j op) hrest
      _ = j.status := applyOp_publish_status j op hop

theorem statusTrace_pubs_append (mid fin : List JobOp) (hmid : allPublishes mid) :
    ∀ (j : ProcessJob), statusTrace j (mid ++ fin)
      = List.replicate mid.length j.status ++ statusTrace (applyOps j mid) fin := by
  induction mid with
  | nil => intro j; simp [applyOps]
  | cons op rest ih =>
    intro j
    have hop := hmid op (List.mem_cons_self _ _)
    have hrest : allPublishes rest := fun o ho => hmid o (List.mem_cons_of_mem _ ho)
    simp only [List.cons_append, statusTrace, List.append_eq]
    rw [ih hrest (applyOp j op), applyOp_publish_status j op hop]
    simp [List.replicate_succ, applyOps]

theorem destutter'_replicate_then (n : Nat) (b c : JobStatus) (hbc : b ≠ c) :
    List.destutter' (· ≠ ·) b (List.replicate n b ++ [c, c]) = [b, c] := by
  induction n with
  | zero =>
    rw [show List.replicate 0 b ++ [c, c] = c :: [c] by simp]
    rw [List.destutter'_cons_pos (R := (· ≠ ·)) (l := [c]) (a := c) (b := b) hbc]
    simp [List.destutter'_singleton]
  | succ n ih =>
    simp only [List.replicate_succ, List.cons_append]
    rw [List.destutter'_cons_neg (R := (· ≠ ·))
      (l := List.replicate n b ++ [c, c]) (a := b) (b := b) (by simp)]
    exact ih

theorem statusTrace_run_destutter (j0 : ProcessJob) (mid : List JobOp)
    (p1 : Json) (tstat : JobStatus) (terr : Option String) (ttype : String)
    (tdata : Json) (now : String)
    (hmid : allPublishes mid) (hj0 : j0.status = JobStatus.pending)
    (hne : JobStatus.running ≠ tstat) :
    (statusTrace j0 ([JobOp.setStatus JobStatus.running none now,
        JobOp.publish "step:start" p1 now] ++ mid ++
        [JobOp.setStatus tstat terr now,
          JobOp.publish ttype tdata now])).destutter (· ≠ ·)
      = [JobStatus.pending, JobStatus.running, tstat] := by
  have hshape : ([JobOp.setStatus JobStatus.running none now,
        JobOp.publish "step:start" p1 now] ++ mid ++
        [JobOp.setStatus tstat terr now, JobOp.publish ttype tdata now])
      = JobOp.setStatus JobStatus.running none now ::
          JobOp.publish "step:start" p1 now ::
          (mid ++ [JobOp.setStatus tstat terr now, JobOp.publish ttype tdata now]) := by
    simp
  rw [hshape]
  rw [show statusTrace j0 (JobOp.setStatus JobStatus.running none now ::
      JobOp.publish "step:start" p1 now ::
      (mid ++ [JobOp.setStatus tstat terr now, JobOp.publish ttype tdata now]))
    = j0.status ::
        (applyOp j0 (JobOp.setStatus JobStatus.running none now)).status ::
        statusTrace
          (applyOp (applyOp j0 (JobOp.setStatus JobStatus.running none now))
            (JobOp.publish "step:start" p1 now))
          (mid ++ [JobOp.setStatus tstat terr now, JobOp.publish ttype tdata now]) from rfl]
  set j2 := applyOp (applyOp j0 (JobOp.setStatus JobStatus.running none now))
    (JobOp.publish "step:start" p1 now) with hj2def
  have h1 : (applyOp j0 (JobOp.setStatus JobStatus.running none now)).status
      = JobStatus.running := rfl
  have h2 : j2.status = JobStatus.running := rfl
  rw [statusTrace_pubs_append mid
    [JobOp.setStatus tstat terr now, JobOp.publish ttype tdata now] hmid j2]
  have h3 : statusTrace (applyOps j2 mid)
      [JobOp.setStatus tstat terr now, JobOp.publish ttype tdata now]
      = (applyOps j2 mid).status :: tstat :: [tstat] := rfl
  rw [h3, hj0, h1, h2, applyOps_publishes_status j2 mid hmid, h2]
  rw [List.destutter_cons']
  rw [List.destutter'_cons_pos (R := (· ≠ ·))
    (l := List.replicate mid.length JobStatus.running ++
      (JobStatus.running :: tstat :: [tstat]))
    (a := JobStatus.running) (b := JobStatus.pending) (by decide)]
  have hlist : List.replicate mid.length JobStatus.running ++
      (JobStatus.running :: tstat :: [tstat])
      = List.replicate (mid.length + 1) JobStatus.running ++ [tstat, tstat] := by
    rw [List.replicate_succ', List.append_assoc]
    rfl
  rw [hlist, destutter'_replicate_then (mid.length + 1) JobStatus.running tstat hne]

/-- C4: a job is created `pending`, `runProcessJob` marks it `running`,
and the run's only further status change is a single terminal transition —
`completed` when the workflow stream finishes, `failed` when it raises.
The de-duplicated status sequence is therefore exactly
`pending → running → (completed | failed)`, and nothing follows the
terminal status. -/
theorem job_status_lifecycle (uuid cNow : String) (input : ProcessInput)
    (chunks : List WorkflowChunk) (failure : Option String) (now : String) :
    (statusTrace (createProcessJob uuid cNow input)
        (runProcessJobOps (createProcessJob uuid cNow input) chunks
          failure now)).destutter (· ≠ ·)
      = [JobStatus.pending, JobStatus.running,
          match failure with
          | none => JobStatus.completed
          | some _ => JobStatus.failed] := by
  cases failure with
  | none =>
    exact statusTrace_run_destutter (createProcessJob uuid cNow input)
      (chunksOps (createProcessJob uuid cNow input) [] chunks now)
      (stepPayload "preprocessor" "Preprocessing du transcript...")
      JobStatus.completed none "done"
      (Json.obj [("message", Json.str "Traitement terminé.")]) now
      (chunksOps_publishes _ _ _ _) rfl (by decide)
  | some m =>
    exact statusTrace_run_destutter (createProcessJob uuid cNow input)
      (chunksOps (createProcessJob uuid cNow input) [] chunks now)
      (stepPayload "preprocessor" "Preprocessing du transcript...")
      JobStatus.failed (some m) "error"
      (Json.obj [("message", Json.str m)]) now
      (chunksOps_publishes _ _ _ _) rfl (by decide)

/-- C5: when the workflow stream raises with message `msg` (a stage
executor or unit-call error), the job ends `failed` with that message
recorded, the final event of its log is an `error` event carrying the
message, with the next sequential id, and every `result` or `done` event
of the log — if any — lies strictly before that `error` event; nothing is
published afterwards. -/
theorem job_failure_semantics (uuid cNow : String) (input : ProcessInput)
    (chunks : List WorkflowChunk) (msg now : String) :
    (runProcessJob (createProcessJob uuid cNow input) chunks (some msg) now).status
        = JobStatus.failed ∧
      (runProcessJob (createProcessJob uuid cNow input) chunks (some msg) now).error
        = some msg ∧
      ∃ pre,
        (runProcessJob (createProcessJob uuid cNow input) chunks (some msg) now).events
            = pre ++ [⟨pre.length + 1, "error",
                Json.obj [("message", Json.str msg)], now⟩] ∧
          ∀ e ∈ (runProcessJob (createProcessJob uuid cNow input) chunks
              (some msg) now).events,
            (e.type = "result" ∨ e.type = "done") → e ∈ pre := by
  set j0 := createProcessJob uuid cNow input with hj0def
  have hops : runProcessJobOps j0 chunks (some msg) now
      = ([JobOp.setStatus JobStatus.running none now,
          JobOp.publish "step:start"
            (stepPayload "preprocessor" "Preprocessing du transcript...") now]
          ++ chunksOps j0 [] chunks now)
        ++ [JobOp.setStatus JobStatus.failed (some msg) now,
            JobOp.publish "error" (Json.obj [("message", Json.str msg)]) now] := by
    rw [runProcessJobOps, List.append_assoc]
  set base := [JobOp.setStatus JobStatus.running none now,
      JobOp.publish "step:start"
        (stepPayload "preprocessor" "Preprocessing du transcript...") now]
      ++ chunksOps j0 [] chunks now with hbase
  set jPre := applyOps j0 base with hjPre
  have hjf : runProcessJob j0 chunks (some msg) now
      = applyOp (applyOp jPre
          (JobOp.setStatus JobStatus.failed (some msg) now))
          (JobOp.publish "error" (Json.obj [("message", Json.str msg)]) now) := by
    rw [runProcessJob, hops, hjPre, applyOps, applyOps, List.foldl_append]
    rfl
  have hids : eventIdsOK jPre :=
    eventIdsOK_applyOps j0 base (by rw [hj0def]; exact eventIdsOK_create uuid cNow input)
  refine ⟨by rw [hjf]; rfl, by rw [hjf]; rfl, ?_⟩
  refine ⟨jPre.events, ?_, ?_⟩
  · rw [hjf]
    show jPre.events ++ [⟨jPre.nextEventId, "error",
        Json.obj [("message", Json.str msg)], now⟩] = _
    rw [hids.2]
  · intro e he htype
    rw [hjf] at he
    have he' : e ∈ jPre.events ++ [(⟨jPre.nextEventId, "error",
        Json.obj [("message", Json.str msg)], now⟩ : ProcessJobEvent)] := he
    rcases List.mem_append.mp he' with hpre | hlast
    · exact hpre
    · rw [List.mem_singleton] at hlast
      subst hlast
      rcases htype with h | h <;> simp at h

/-- C5, witness: a concrete failing run — one processed chunk, then the
stream raises `boom`. -/
theorem job_failure_semantics_witness :
    (runProcessJob (createProcessJob "job-3" "t0" sampleInput)
        [WorkflowChunk.preprocessor] (some "boom") "t1").status = JobStatus.failed ∧
      (runProcessJob (createProcessJob "job-3" "t0" sampleInput)
        [WorkflowChunk.preprocessor] (some "boom") "t1").error = some "boom" ∧
      ∃ pre,
        (runProcessJob (createProcessJob "job-3" "t0" sampleInput)
            [WorkflowChunk.preprocessor] (some "boom") "t1").events
            = pre ++ [⟨pre.length + 1, "error",
                Json.obj [("message", Json.str "boom")], "t1"⟩] ∧
          ∀ e ∈ (runProcessJob (createProcessJob "job-3" "t0" sampleInput)
              [WorkflowChunk.preprocessor] (some "boom") "t1").events,
            (e.type = "result" ∨ e.type = "done") → e ∈ pre :=
  job_failure_semantics "job-3" "t0" sampleInput [WorkflowChunk.preprocessor] "boom" "t1"

theorem parseProcessRequest_blank (req : ApiRequest)
    (jsonParse : String → Option Json) (h : jsTrim (transcriptTextOf req) = "") :
    parseProcessRequest req jsonParse
      = ParsedProcessRequest.reject 400 "Aucun transcript fourni." := by
  unfold parseProcessRequest
  rw [if_pos h]

theorem parseProcessRequest_not_blank (req : ApiRequest)
    (jsonParse : String → Option Json) (h : ¬ jsTrim (transcriptTextOf req) = "") :
    ∃ mk, parseProcessRequest req jsonParse
      = parsePlayerInfoField (playerInfoField req) jsonParse mk := by
  unfold parseProcessRequest
  rw [if_neg h]
  exact ⟨_, rfl⟩

/-- C9: a submission with a blank or missing transcript, or a malformed
roster, is answered with a 400 client error and no job is created;
otherwise a job is created with status `pending` and an empty log, and
the request is answered `202` with its summary. -/
theorem post_jobs_validation (req : ApiRequest) (jsonParse : String → Option Json)
    (uuid now : String) :
    (jsTrim (transcriptTextOf req) = "" →
      postJobs req jsonParse uuid now
        = (JobsApiResult.clientError 400 "Aucun transcript fourni.", none)) ∧
      (jsTrim (transcriptTextOf req) ≠ "" → rosterMalformed req jsonParse = true →
        ∃ m, postJobs req jsonParse uuid now
          = (JobsApiResult.clientError 400 m, none)) ∧
      (jsTrim (transcriptTextOf req) ≠ "" → rosterMalformed req jsonParse = false →
        ∃ input, postJobs req jsonParse uuid now
            = (JobsApiResult.accepted 202
                (toProcessJobSummary (createProcessJob uuid now input)),
              some (createProcessJob uuid now input)) ∧
          (createProcessJob uuid now input).status = JobStatus.pending ∧
          (createProcessJob uuid now input).events = []) := by
  refine ⟨?_, ?_, ?_⟩
  · intro hblank
    unfold postJobs
    rw [parseProcessRequest_blank req jsonParse hblank]
    rfl
  · intro hne hmal
    unfold postJobs
    rcases parseProcessRequest_not_blank req jsonParse hne with ⟨mk, hmk⟩
    rw [hmk]
    unfold rosterMalformed at hmal
    cases hpi : playerInfoField req with
    | str str =>
      rw [hpi] at hmal
      simp only [] at hmal
      cases hjp : jsonParse str with
      | none =>
        refine ⟨"playerInfo invalide (JSON attendu).", ?_⟩
        simp only [parsePlayerInfoField, hjp, parsePlayerInfoString, postJobsResult]
      | some v =>
        rw [hjp] at hmal
        cases v with
        | arr items => simp [rosterStringMalformed] at hmal
        | null =>
          refine ⟨"playerInfo invalide (tableau attendu).", ?_⟩
          simp only [parsePlayerInfoField, hjp, parsePlayerInfoString, postJobsResult]
        | bool b =>
          refine ⟨"playerInfo invalide (tableau attendu).", ?_⟩
          simp only [parsePlayerInfoField, hjp, parsePlayerInfoString, postJobsResult]
        | num n =>
          refine ⟨"playerInfo invalide (tableau attendu).", ?_⟩
          simp only [parsePlayerInfoField, hjp, parsePlayerInfoString, postJobsResult]
        | str s2 =>
          refine ⟨"playerInfo invalide (tableau attendu).", ?_⟩
          simp only [parsePlayerInfoField, hjp, parsePlayerInfoString, postJobsResult]
        | obj fields =>
          refine ⟨"playerInfo invalide (tableau attendu).", ?_⟩
          simp only [parsePlayerInfoField, hjp, parsePlayerInfoString, postJobsResult]
    | arr items =>
      rw [hpi] at hmal
      simp at hmal
    | null => exact ⟨_, rfl⟩
    | bool b => exact ⟨_, rfl⟩
    | num n => exact ⟨_, rfl⟩
    | obj fields => exact ⟨_, rfl⟩
  · intro hne hok
    unfold postJobs
    rcases parseProcessRequest_not_blank req jsonParse hne with ⟨mk, hmk⟩
    rw [hmk]
    unfold rosterMalformed at hok
    cases hpi : playerInfoField req with
    | str str =>
      rw [hpi] at hok
      simp only [] at hok
      cases hjp : jsonParse str with
      | none => rw [hjp] at hok; simp [rosterStringMalformed] at hok
      | some v =>
        rw [hjp] at hok
        cases v with
        | arr items =>
          refine ⟨mk items, ?_, rfl, rfl⟩
          simp only [parsePlayerInfoField, hjp, parsePlayerInfoString, postJobsResult]
        | null => simp [rosterStringMalformed] at hok
        | bool b => simp [rosterStringMalformed] at hok
        | num n => simp [rosterStringMalformed] at hok
        | str s2 => simp [rosterStringMalformed] at hok
        | obj fields => simp [rosterStringMalformed] at hok
    | arr items => exact ⟨_, rfl, rfl, rfl⟩
    | null => rw [hpi] at hok; simp at hok
    | bool b => rw [hpi] at hok; simp at hok
    | num n => rw [hpi] at hok; simp at hok
    | obj fields => rw [hpi] at hok; simp at hok

/-- C9, witness: the sample submission creates a pending job with an
empty log and is answered 202. -/
theorem post_jobs_validation_witness :
    jsTrim (transcriptTextOf sampleRequest) ≠ "" ∧
      rosterMalformed sampleRequest (fun _ => none) = false ∧
      ∃ input, postJobs sampleRequest (fun _ => none) "job-2" "t0"
          = (JobsApiResult.accepted 202
              (toProcessJobSummary (createProcessJob "job-2" "t0" input)),
            some (createProcessJob "job-2" "t0" input)) ∧
        (createProcessJob "job-2" "t0" input).status = JobStatus.pending ∧
        (createProcessJob "job-2" "t0" input).events = [] :=
  ⟨by decide, rfl,
    (post_jobs_validation sampleRequest (fun _ => none) "job-2" "t0").2.2
      (by decide) rfl⟩

/-- C10: a missing, non-numeric, or negative `from` query parameter is
treated as 0, and a replay from 0 is the job's entire event log. -/
theorem stream_from_defaults (q : Option String) (j : ProcessJob) :
    (q = none → streamFromEventId q = 0) ∧
      (∀ s, q = some s → jsParseInt s = none → streamFromEventId q = 0) ∧
      (∀ s n, q = some s → jsParseInt s = some n → n < 0 → streamFromEventId q = 0) ∧
      replayEvents j 0 = j.events := by
  refine ⟨?_, ?_, ?_, ?_⟩
  · intro h
    subst h
    rfl
  · intro str h hparse
    subst h
    unfold streamFromEventId
    rw [show (some str).getD "0" = str from rfl, hparse]
  · intro str n h hparse hneg
    subst h
    unfold streamFromEventId
    rw [show (some str).getD "0" = str from rfl, hparse]
    show (if 0 ≤ n then n.toNat else 0) = 0
    rw [if_neg (by omega)]
  · unfold replayEvents
    rw [List.filter_eq_self.mpr]
    intro e _
    simp

/-- C10, witness: `from` missing, `from=abc` and `from=-7` all replay
from 0, and a 0 replay on the sample job returns its full log. -/
theorem stream_from_defaults_witness :
    streamFromEventId none = 0 ∧ streamFromEventId (some "abc") = 0 ∧
      streamFromEventId (some "-7") = 0 ∧
      replayEvents sampleJob 0 = sampleJob.events :=
  ⟨(stream_from_defaults none sampleJob).1 rfl,
    (stream_from_defaults (some "abc") sampleJob).2.1 "abc" rfl (by decide),
    (stream_from_defaults (some "-7") sampleJob).2.2.1 "-7" (-7) rfl (by decide) (by decide),
    (stream_from_defaults none sampleJob).2.2.2⟩

end CrSession
